import Mathlib

/-!
Swim records backend: the listing and creation handlers

A shallow embedding of `src/routes/records.js` (the `GET /records` and
`POST /records` handlers) together with the parts of the JavaScript runtime
they rely on (`parseInt`, `String.prototype.trim`, truthiness,
`querystring.stringify`, object spread).

Conventions of the embedding:

* JavaScript numbers that the handlers use are integers; they are modelled by
  `Int`, exactly.  `NaN` is a separate constructor of `JsNum`.  The program
  computes with doubles: the model agrees with it as long as every numeral
  stays inside the safe integer range (`isSafeInteger`, magnitude below
  `2 ^ 53`); beyond it the program rounds, reaches `Infinity` from about 309
  digits on, and renders numbers from `10 ^ 21` on with an exponent.  Theorems
  whose statement depends on the exact value or on the rendering of a parsed
  number carry the range as a hypothesis (`inSafeRange`).
* `Query` is the parsed query object `req.query` when every value is a single
  string: a list of key/value pairs in property enumeration order.  A repeated
  parameter reaches the handler as an array; `RawQuery` and `getRecordsRaw`
  embed the handler for such requests too, and `getRecordsRaw_ofQuery` shows
  that the two embeddings agree on string-valued requests.
* The storage collaborator (`Record.countDocuments`, `Record.find`,
  `Record.create`) is a parameter of the handlers; a list-backed store is
  provided as an instance.
-/

namespace SwimRecords

/-! ## JavaScript runtime -/

/-- White space and line terminators of ECMAScript, the characters that
`String.prototype.trim` strips and that `parseInt` skips. -/
def isJsWhitespace (c : Char) : Bool :=
  let n := c.toNat
  n == 0x09 || n == 0x0A || n == 0x0B || n == 0x0C || n == 0x0D || n == 0x20 ||
  n == 0xA0 || n == 0x1680 || (0x2000 ≤ n && n ≤ 0x200A) || n == 0x2028 ||
  n == 0x2029 || n == 0x202F || n == 0x205F || n == 0x3000 || n == 0xFEFF

/-- The characters of `s.trim()`. -/
def jsTrimChars (cs : List Char) : List Char :=
  ((cs.dropWhile isJsWhitespace).reverse.dropWhile isJsWhitespace).reverse

/-- JavaScript `s.trim()`. -/
def jsTrim (s : String) : String := String.mk (jsTrimChars s.toList)

/-- A JavaScript number as produced by `parseInt`: `NaN` or an integer. -/
inductive JsNum where
  | nan : JsNum
  | num (n : Int) : JsNum
  deriving DecidableEq, Repr

/-- Value of a character as a digit (up to radix 16), if it is one. -/
def digitValue (c : Char) : Option Nat :=
  let n := c.toNat
  if 48 ≤ n ∧ n ≤ 57 then some (n - 48)
  else if 97 ≤ n ∧ n ≤ 102 then some (n - 87)
  else if 65 ≤ n ∧ n ≤ 70 then some (n - 55)
  else none

/-- The longest prefix of radix-`radix` digits, as digit values. -/
def takeDigits (radix : Nat) : List Char → List Nat
  | [] => []
  | c :: cs =>
    match digitValue c with
    | some d => if d < radix then d :: takeDigits radix cs else []
    | none => []

/-- The number denoted by a list of digits, most significant first. -/
def fromDigits (radix : Nat) (ds : List Nat) : Nat :=
  ds.foldl (fun acc d => acc * radix + d) 0

/-- Sign step of `parseInt`: a leading `-` or `+` is removed, `-` negates. -/
def splitSign : List Char → Bool × List Char
  | c :: cs => if c = '-' then (true, cs) else if c = '+' then (false, cs) else (false, c :: cs)
  | [] => (false, [])

/-- Radix step of `parseInt` called without a radix: `0x` / `0X` selects 16. -/
def splitRadix : List Char → Nat × List Char
  | c :: d :: cs =>
    if c = '0' ∧ (d = 'x' ∨ d = 'X') then (16, cs) else (10, c :: d :: cs)
  | cs => (10, cs)

/-- JavaScript `parseInt` without a radix argument, on the characters of its
input: skip leading white space, read the sign, choose the radix, read the
longest prefix of digits; no digit gives `NaN`.  The result is the exact
integer the digits denote; the program holds it in a double, which is the
same number when it is a safe integer (`isSafeInteger`). -/
def parseIntChars (cs : List Char) : JsNum :=
  let signed := splitSign (cs.dropWhile isJsWhitespace)
  let based := splitRadix signed.2
  match takeDigits based.1 based.2 with
  | [] => JsNum.nan
  | d :: ds =>
    let mathInt : Int := (fromDigits based.1 (d :: ds) : Nat)
    JsNum.num (if signed.1 then -mathInt else mathInt)

/-- JavaScript `parseInt(s)` on a string, without a radix argument. -/
def parseInt (s : String) : JsNum := parseIntChars s.toList

/-- A raw value counts as non-numeric when, after leading white space and an
optional sign, it does not start with a decimal digit. -/
def isNonNumeric (s : String) : Bool :=
  match (splitSign (s.toList.dropWhile isJsWhitespace)).2 with
  | [] => true
  | c :: _ => !(48 ≤ c.toNat && c.toNat ≤ 57)

/-- A raw value is a negative numeral candidate when its first character
after leading white space is the minus sign. -/
def startsWithMinus (s : String) : Bool :=
  match s.toList.dropWhile isJsWhitespace with
  | c :: _ => c == '-'
  | [] => false

/-- JavaScript `parseInt(v)` where `v` is a string or `undefined`:
`undefined` is first converted to the string `"undefined"`. -/
def parseIntArg : Option String → JsNum
  | some s => parseInt s
  | none => parseInt "undefined"

/-- The integers on which the arithmetic of the program is exact
(`Number.isSafeInteger`): magnitude below `2 ^ 53`. -/
def isSafeInteger (n : Int) : Bool := decide (n.natAbs < 2 ^ 53)

/-- A raw parameter value stays in the safe range when `parseInt` of it is
`NaN` or a safe integer; on such values `parseInt` of this file is the
`parseInt` of the program. -/
def inSafeRange (v : Option String) : Bool :=
  match parseIntArg v with
  | JsNum.nan => true
  | JsNum.num n => isSafeInteger n

/-- Truthiness of a value that is a string or `undefined`. -/
def truthyStr : Option String → Bool
  | some s => s != ""
  | none => false

/-- Truthiness of a value that is `null` (`none`) or a number; yields the
number when it is truthy (neither `NaN` nor zero). -/
def truthyNum : Option JsNum → Option Int
  | some (JsNum.num n) => if n = 0 then none else some n
  | _ => none

/-- JavaScript `x || 1` for a number `x`. -/
def orOne : JsNum → Int
  | JsNum.num n => if n = 0 then 1 else n
  | JsNum.nan => 1

/-- `Math.ceil(a / b)` for integers `a`, `b` with `b ≠ 0`, computed with
integer division (`/` on `Int` rounds so that the remainder is non-negative);
`ceilDiv_eq_ceil` shows that this is the ceiling of the rational quotient. -/
def ceilDiv (a b : Int) : Int := if b < 0 then a / b else -((-a) / b)

/-! ## Query strings -/

/-- The parsed query object (`req.query`), string values only: one entry per
property, in enumeration order. -/
abbrev Query := List (String × String)

/-- Property read `obj[k]`; `none` is `undefined`. -/
def getParam (q : Query) (k : String) : Option String := List.lookup k q

/-- Property write on an object literal under construction: an existing key
keeps its position and takes the new value, a new key is appended. -/
def setParam (k v : String) : Query → Query
  | [] => [(k, v)]
  | (k', v') :: rest => if k' = k then (k, v) :: rest else (k', v') :: setParam k v rest

/-- Characters that `querystring.escape` leaves untouched:
`A-Z a-z 0-9 - _ . ! ~ * ' ( )`. -/
def isUnescaped (c : Char) : Bool :=
  let n := c.toNat
  (48 ≤ n && n ≤ 57) || (65 ≤ n && n ≤ 90) || (97 ≤ n && n ≤ 122) ||
  n == 33 || n == 39 || n == 40 || n == 41 || n == 42 || n == 45 || n == 46 ||
  n == 95 || n == 126

/-- Upper-case hexadecimal digit. -/
def hexDigit (n : Nat) : Char :=
  if n < 10 then Char.ofNat (48 + n) else Char.ofNat (55 + n)

/-- Percent-encoding of one byte. -/
def percentByte (b : UInt8) : List Char :=
  ['%', hexDigit (b.toNat / 16), hexDigit (b.toNat % 16)]

/-- Encoding of one character by `querystring.escape`. -/
def escapeChar (c : Char) : List Char :=
  if isUnescaped c then [c] else (String.utf8EncodeChar c).flatMap percentByte

/-- Node `querystring.escape`. -/
def qsEscape (s : String) : String := String.mk (s.toList.flatMap escapeChar)

/-- Node `querystring.stringify` on an object whose values are strings. -/
def stringify (q : Query) : String :=
  "&".intercalate (q.map (fun kv => qsEscape kv.1 ++ "=" ++ qsEscape kv.2))

/-- Decimal rendering of an integer, as `querystring.stringify` renders a
number of magnitude below `10 ^ 21` (every safe integer is one). -/
def numStr (n : Int) : String := toString n

/-! ## Data model -/

/-- A stored record (`src/models/Record.js`), with the identifier assigned by
the store. -/
structure Record where
  id : String
  stroke : String
  distance : String
  time : String
  name : String
  gender : String
  country : String
  imageUrl : String
  favorite : Bool
  deriving DecidableEq, Repr

/-- The storage filter built by the listing handler; an absent field places no
constraint. -/
structure MongoFilter where
  stroke : Option String
  distance : Option String
  deriving DecidableEq, Repr

/-- The storage collaborator as used by the listing handler.  `find f none`
is `Record.find(f)`, `find f (some (skip, limit))` is
`Record.find(f).skip(skip).limit(limit)`; a thrown error is `Except.error`
with the error message. -/
structure Store where
  countDocuments : MongoFilter → Except String Nat
  find : MongoFilter → Option (Int × Int) → Except String (List Record)

/-- Exact-match semantics of the storage filter on a record. -/
def matchesFilter (f : MongoFilter) (r : Record) : Bool :=
  (match f.stroke with
   | some s => r.stroke == s
   | none => true) &&
  (match f.distance with
   | some d => r.distance == d
   | none => true)

/-- A store backed by a list in natural order: `find` applies the filter, then
the skip, then the limit.  As in MongoDB a negative skip is rejected, a
negative limit counts by its absolute value and a limit of zero is no
limit. -/
def listStore (db : List Record) : Store where
  countDocuments := fun f => Except.ok (db.filter (matchesFilter f)).length
  find := fun f window =>
    match window with
    | none => Except.ok (db.filter (matchesFilter f))
    | some (skip, limit) =>
      if skip < 0 then Except.error "Skip value must be non-negative"
      else if limit = 0 then Except.ok ((db.filter (matchesFilter f)).drop skip.toNat)
      else Except.ok (((db.filter (matchesFilter f)).drop skip.toNat).take limit.natAbs)

/-- Process configuration read by the handlers. -/
structure Env where
  APPLICATION_URL : String
  EXPRESS_PORT : String

/-- A pagination link. -/
structure Link where
  page : Int
  href : String
  deriving DecidableEq, Repr

/-- The summary view of one record in a listing. -/
structure Item where
  stroke : String
  distance : String
  name : String
  imageUrl : String
  favorite : Bool
  id : String
  selfHref : String
  deriving DecidableEq, Repr

/-- The `pagination` object of a listing. -/
structure Pagination where
  currentPage : Int
  currentItems : Nat
  totalPages : Int
  totalItems : Nat
  first : Link
  last : Link
  previous : Option Link
  next : Option Link
  deriving DecidableEq, Repr

/-- The body of a 200 listing response. -/
structure ListBody where
  items : List Item
  selfHref : String
  collectionHref : String
  pagination : Pagination
  deriving DecidableEq, Repr

/-- The response of `GET /records`: 200 with a body, or 500 with a message. -/
inductive ListResponse where
  | ok (body : ListBody) : ListResponse
  | serverError (message : String) : ListResponse
  deriving DecidableEq, Repr

/-! ## GET /records -/

/-- The filter of lines 37-39: a field is constrained when its query value is
truthy. -/
def buildFilter (q : Query) : MongoFilter where
  stroke := if truthyStr (getParam q "stroke") then getParam q "stroke" else none
  distance := if truthyStr (getParam q "distance") then getParam q "distance" else none

/-- The page of line 42: `parseInt(pageStr) || 1`. -/
def pageOf (q : Query) : Int := orOne (parseIntArg (getParam q "page"))

/-- The limit of line 43: `limitStr ? parseInt(limitStr) : null`. -/
def limitOf (q : Query) : Option JsNum :=
  if truthyStr (getParam q "limit") then some (parseIntArg (getParam q "limit")) else none

/-- The skip and limit handed to the store: present when `limit` is truthy
(line 49), absent when the handler takes the branch of line 55. -/
def findWindow (q : Query) : Option (Int × Int) :=
  match truthyNum (limitOf q) with
  | some limit => some ((pageOf q - 1) * limit, limit)
  | none => none

/-- The total page count of lines 47-56. -/
def totalPagesOf (q : Query) (totalItems : Nat) : Int :=
  match truthyNum (limitOf q) with
  | some limit => orOne (JsNum.num (ceilDiv totalItems limit))
  | none => 1

/-- The address of the records collection. -/
def recordsUrl (env : Env) : String :=
  env.APPLICATION_URL ++ ":" ++ env.EXPRESS_PORT ++ "/records"

/-- The summary of one record (lines 58-70). -/
def toItem (env : Env) (r : Record) : Item where
  stroke := r.stroke
  distance := r.distance
  name := r.name
  imageUrl := r.imageUrl
  favorite := r.favorite
  id := r.id
  selfHref := recordsUrl env ++ "/" ++ r.id

/-- The self link of line 74. -/
def selfLink (env : Env) (q : Query) : String :=
  recordsUrl env ++ (if stringify q != "" then "?" ++ stringify q else "")

/-- The object `{...req.query, page: p, limit}` of line 75 for a numeric
`limit`, with the numbers rendered as `querystring.stringify` renders them. -/
def pageParams (q : Query) (p limit : Int) : Query :=
  setParam "limit" (numStr limit) (setParam "page" (numStr p) q)

/-- The helper `buildPageLink` of line 75, for a truthy `limit`. -/
def buildPageLink (q : Query) (limit p : Int) : String :=
  stringify (pageParams q p limit)

/-- The `href` of a pagination link to page `p` (lines 91, 95, 99, 103). -/
def pageHref (env : Env) (q : Query) (limit p : Int) : String :=
  recordsUrl env ++ "?" ++ buildPageLink q limit p

/-- The response body of lines 77-107, from the count and the fetched
records. -/
def listBody (env : Env) (q : Query) (totalItems : Nat) (records : List Record) : ListBody :=
  let page := pageOf q
  let limit := truthyNum (limitOf q)
  let totalPages := totalPagesOf q totalItems
  let items := records.map (toItem env)
  { items := items
    selfHref := selfLink env q
    collectionHref := recordsUrl env
    pagination :=
      { currentPage := page
        currentItems := items.length
        totalPages := totalPages
        totalItems := totalItems
        first :=
          { page := 1
            href := match limit with
              | some l => pageHref env q l 1
              | none => selfLink env q }
        last :=
          { page := totalPages
            href := match limit with
              | some l => pageHref env q l totalPages
              | none => selfLink env q }
        previous := match limit with
          | some l => if page > 1 then some { page := page - 1, href := pageHref env q l (page - 1) } else none
          | none => none
        next := match limit with
          | some l => if page < totalPages then some { page := page + 1, href := pageHref env q l (page + 1) } else none
          | none => none } }

/-- The handler `router.get('/')`: count, then fetch, then build the body; an
error thrown by the store gives the 500 response. -/
def getRecords (env : Env) (store : Store) (q : Query) : ListResponse :=
  let mongoFilter := buildFilter q
  match store.countDocuments mongoFilter with
  | Except.error e => ListResponse.serverError e
  | Except.ok totalItems =>
    match store.find mongoFilter (findWindow q) with
    | Except.error e => ListResponse.serverError e
    | Except.ok records => ListResponse.ok (listBody env q totalItems records)

/-! ## GET /records with repeated parameters -/

/-- A value of the parsed query object as the framework delivers it: a single
string or, for a repeated parameter, a non-empty array of strings (its first
element and the others).  Object values, which only the bracket syntax of the
extended query parser produces, are not modelled. -/
inductive QueryValue where
  | str (s : String) : QueryValue
  | arr (first : String) (others : List String) : QueryValue
  deriving DecidableEq, Repr

/-- The parsed query object (`req.query`) with string and array values: one
entry per property, in enumeration order. -/
abbrev RawQuery := List (String × QueryValue)

/-- The strings held by a value, in order. -/
def valueElements : QueryValue → List String
  | QueryValue.str s => [s]
  | QueryValue.arr x xs => x :: xs

/-- JavaScript `String(v)`: the elements of an array are joined by commas. -/
def valueToString : QueryValue → String
  | QueryValue.str s => s
  | QueryValue.arr x xs => ",".intercalate (x :: xs)

/-- Truthiness of a value that is a string, an array or `undefined`: an array
is always truthy. -/
def truthyValue : Option QueryValue → Bool
  | some (QueryValue.str s) => s != ""
  | some (QueryValue.arr _ _) => true
  | none => false

/-- The storage filter when values may be arrays. -/
structure RawFilter where
  stroke : Option QueryValue
  distance : Option QueryValue
  deriving DecidableEq, Repr

/-- The storage collaborator for filters that may hold arrays. -/
structure RawStore where
  countDocuments : RawFilter → Except String Nat
  find : RawFilter → Option (Int × Int) → Except String (List Record)

/-- How the store matches one string field against a filter value: no value is
no constraint, a string is an exact match, and an array, which the schema
layer casts to `$in`, is membership. -/
def valueMatches : Option QueryValue → String → Bool
  | none, _ => true
  | some (QueryValue.str s), x => x == s
  | some (QueryValue.arr y ys), x => (y :: ys).contains x

/-- Matching of a record against a filter that may hold arrays. -/
def rawMatchesFilter (f : RawFilter) (r : Record) : Bool :=
  valueMatches f.stroke r.stroke && valueMatches f.distance r.distance

/-- The list-backed store for filters that may hold arrays; skip and limit as
in `listStore`. -/
def rawListStore (db : List Record) : RawStore where
  countDocuments := fun f => Except.ok (db.filter (rawMatchesFilter f)).length
  find := fun f window =>
    match window with
    | none => Except.ok (db.filter (rawMatchesFilter f))
    | some (skip, limit) =>
      if skip < 0 then Except.error "Skip value must be non-negative"
      else if limit = 0 then Except.ok ((db.filter (rawMatchesFilter f)).drop skip.toNat)
      else Except.ok (((db.filter (rawMatchesFilter f)).drop skip.toNat).take limit.natAbs)

/-- Property read on a query object with array values. -/
def rawGetParam (q : RawQuery) (k : String) : Option QueryValue := List.lookup k q

/-- Property write on an object literal under construction, as `setParam`. -/
def rawSetParam (k : String) (v : QueryValue) : RawQuery → RawQuery
  | [] => [(k, v)]
  | (k', v') :: rest => if k' = k then (k, v) :: rest else (k', v') :: rawSetParam k v rest

/-- Node `querystring.stringify` on an object whose values are strings or
non-empty arrays of strings: an array gives one `key=value` pair per
element. -/
def rawStringify (q : RawQuery) : String :=
  "&".intercalate
    (q.flatMap (fun kv => (valueElements kv.2).map (fun x => qsEscape kv.1 ++ "=" ++ qsEscape x)))

/-- The filter of lines 37-39: the value itself, string or array, is copied
into the filter when it is truthy. -/
def rawBuildFilter (q : RawQuery) : RawFilter where
  stroke := if truthyValue (rawGetParam q "stroke") then rawGetParam q "stroke" else none
  distance := if truthyValue (rawGetParam q "distance") then rawGetParam q "distance" else none

/-- The page of line 42; `parseInt` first converts its argument to a string. -/
def rawPageOf (q : RawQuery) : Int :=
  orOne (parseIntArg ((rawGetParam q "page").map valueToString))

/-- The limit of line 43. -/
def rawLimitOf (q : RawQuery) : Option JsNum :=
  if truthyValue (rawGetParam q "limit")
  then some (parseIntArg ((rawGetParam q "limit").map valueToString)) else none

/-- The skip and limit handed to the store (lines 49-56). -/
def rawFindWindow (q : RawQuery) : Option (Int × Int) :=
  match truthyNum (rawLimitOf q) with
  | some limit => some ((rawPageOf q - 1) * limit, limit)
  | none => none

/-- The total page count of lines 47-56. -/
def rawTotalPagesOf (q : RawQuery) (totalItems : Nat) : Int :=
  match truthyNum (rawLimitOf q) with
  | some limit => orOne (JsNum.num (ceilDiv totalItems limit))
  | none => 1

/-- The self link of line 74. -/
def rawSelfLink (env : Env) (q : RawQuery) : String :=
  recordsUrl env ++ (if rawStringify q != "" then "?" ++ rawStringify q else "")

/-- The `href` of a pagination link to page `p` (lines 75, 91, 95, 99, 103):
`page` and `limit` are overridden by numbers. -/
def rawPageHref (env : Env) (q : RawQuery) (limit p : Int) : String :=
  recordsUrl env ++ "?" ++
    rawStringify (rawSetParam "limit" (QueryValue.str (numStr limit))
      (rawSetParam "page" (QueryValue.str (numStr p)) q))

/-- The response body of lines 77-107 for a query with array values. -/
def rawListBody (env : Env) (q : RawQuery) (totalItems : Nat) (records : List Record) :
    ListBody :=
  let page := rawPageOf q
  let limit := truthyNum (rawLimitOf q)
  let totalPages := rawTotalPagesOf q totalItems
  let items := records.map (toItem env)
  { items := items
    selfHref := rawSelfLink env q
    collectionHref := recordsUrl env
    pagination :=
      { currentPage := page
        currentItems := items.length
        totalPages := totalPages
        totalItems := totalItems
        first :=
          { page := 1
            href := match limit with
              | some l => rawPageHref env q l 1
              | none => rawSelfLink env q }
        last :=
          { page := totalPages
            href := match limit with
              | some l => rawPageHref env q l totalPages
              | none => rawSelfLink env q }
        previous := match limit with
          | some l =>
            if page > 1 then some { page := page - 1, href := rawPageHref env q l (page - 1) }
            else none
          | none => none
        next := match limit with
          | some l =>
            if page < totalPages then
              some { page := page + 1, href := rawPageHref env q l (page + 1) }
            else none
          | none => none } }

/-- The handler `router.get('/')` on a query with string and array values. -/
def getRecordsRaw (env : Env) (store : RawStore) (q : RawQuery) : ListResponse :=
  let mongoFilter := rawBuildFilter q
  match store.countDocuments mongoFilter with
  | Except.error e => ListResponse.serverError e
  | Except.ok totalItems =>
    match store.find mongoFilter (rawFindWindow q) with
    | Except.error e => ListResponse.serverError e
    | Except.ok records => ListResponse.ok (rawListBody env q totalItems records)

/-- A string-valued query seen as a query with array values. -/
def ofQuery (q : Query) : RawQuery := q.map (fun kv => (kv.1, QueryValue.str kv.2))

/-- A string-valued filter seen as a filter with array values. -/
def ofFilter (f : MongoFilter) : RawFilter where
  stroke := f.stroke.map QueryValue.str
  distance := f.distance.map QueryValue.str

/-- The store for string-valued filters that a store for array-valued filters
provides. -/
def stringStore (store : RawStore) : Store where
  countDocuments := fun f => store.countDocuments (ofFilter f)
  find := fun f window => store.find (ofFilter f) window

/-! ## POST /records -/

/-- A value of the JSON request body as the validation sees it: its type and,
for a string, its content. -/
inductive JsonValue where
  | null : JsonValue
  | bool (b : Bool) : JsonValue
  | number : JsonValue
  | array : JsonValue
  | object : JsonValue
  | str (s : String) : JsonValue
  deriving DecidableEq, Repr

/-- The parsed request body (`req.body`): the properties of a JSON object,
one entry per property. -/
abbrev Body := List (String × JsonValue)

/-- The list `requiredFields` of line 134. -/
def requiredFields : List String :=
  ["stroke", "distance", "time", "name", "gender", "country", "imageUrl"]

/-- The rejection test of lines 137-141 for one field: the value is
`undefined`, or not a string, or a string that trims to the empty string. -/
def fieldRejected (body : Body) (field : String) : Bool :=
  match List.lookup field body with
  | none => true
  | some (JsonValue.str s) => jsTrim s == ""
  | some _ => true

/-- The argument of `Record.create` (lines 149-157); `none` is `undefined`. -/
structure CreateArgs where
  stroke : Option JsonValue
  distance : Option JsonValue
  time : Option JsonValue
  name : Option JsonValue
  gender : Option JsonValue
  country : Option JsonValue
  imageUrl : Option JsonValue
  deriving DecidableEq, Repr

/-- The body of a creation response: the stored record or an error message. -/
inductive PostBody where
  | record (r : Record) : PostBody
  | error (message : String) : PostBody
  deriving DecidableEq, Repr

/-- What `POST /records` does: the status and body it sends and the calls it
makes to `Record.create`, in order. -/
structure PostOutcome where
  status : Nat
  body : PostBody
  createCalls : List CreateArgs
  deriving DecidableEq, Repr

/-- The error message of line 143 for a field. -/
def requiredMessage (field : String) : String :=
  "Field \x27" ++ field ++ "\x27 is required and must be not empty"

/-- The object handed to `Record.create` (lines 149-157): the seven fields
read from the body. -/
def createArgsOf (body : Body) : CreateArgs :=
  { stroke := List.lookup "stroke" body
    distance := List.lookup "distance" body
    time := List.lookup "time" body
    name := List.lookup "name" body
    gender := List.lookup "gender" body
    country := List.lookup "country" body
    imageUrl := List.lookup "imageUrl" body }

/-- The handler `router.post('/')`: the loop of lines 136-146 answers 400 at
the first rejected field; otherwise `Record.create` is applied to the seven
fields, its record is answered with 201, and an error it throws is answered
with 400 and the error's message. -/
def postRecords (create : CreateArgs → Except String Record) (body : Body) : PostOutcome :=
  match requiredFields.find? (fieldRejected body) with
  | some field => { status := 400, body := PostBody.error (requiredMessage field), createCalls := [] }
  | none =>
    match create (createArgsOf body) with
    | Except.ok record =>
      { status := 201, body := PostBody.record record, createCalls := [createArgsOf body] }
    | Except.error e =>
      { status := 400, body := PostBody.error e, createCalls := [createArgsOf body] }

/-! ## Sample data -/

/-- A sample configuration. -/
def sampleEnv : Env := { APPLICATION_URL := "http://localhost", EXPRESS_PORT := "8000" }

/-- The `i`-th sample record; strokes alternate. -/
def sampleRecord (i : Nat) : Record :=
  { id := toString i
    stroke := if i % 2 = 0 then "freestyle" else "butterfly"
    distance := "100m"
    time := "00:50.00"
    name := "Swimmer"
    gender := "f"
    country := "NL"
    imageUrl := "http://img"
    favorite := false }

/-- A sample collection of `n` records. -/
def sampleDb (n : Nat) : List Record := (List.range n).map sampleRecord

/-- A sample store function for `Record.create`: it assigns a fixed id. -/
def sampleCreate (args : CreateArgs) : Except String Record :=
  match args.stroke, args.distance, args.time, args.name, args.gender, args.country,
    args.imageUrl with
  | some (JsonValue.str a), some (JsonValue.str b), some (JsonValue.str c),
    some (JsonValue.str d), some (JsonValue.str e), some (JsonValue.str f),
    some (JsonValue.str g) =>
    Except.ok { id := "1", stroke := a, distance := b, time := c, name := d, gender := e,
                country := f, imageUrl := g, favorite := false }
  | _, _, _, _, _, _, _ => Except.error "Record validation failed"

/-- A complete, valid request body. -/
def sampleBody : Body :=
  [("stroke", JsonValue.str "freestyle"), ("distance", JsonValue.str "100m"),
   ("time", JsonValue.str "00:50.00"), ("name", JsonValue.str "Swimmer"),
   ("gender", JsonValue.str "f"), ("country", JsonValue.str "NL"),
   ("imageUrl", JsonValue.str "http://img")]

/-! ## Auxiliary lemmas -/

/-- The integer computation `ceilDiv` is the ceiling of the rational
quotient. -/
theorem ceilDiv_eq_ceil (a b : Int) (hb : b ≠ 0) :
    ceilDiv a b = Int.ceil ((a : ℚ) / (b : ℚ)) := by
  unfold ceilDiv
  split
  · rename_i h
    have hbq : (b : ℚ) < 0 := by exact_mod_cast h
    have h1 : ((a % b : Int) : ℚ) + (b : ℚ) * ((a / b : Int) : ℚ) = (a : ℚ) := by
      exact_mod_cast Int.emod_add_ediv a b
    have h2 : (0 : ℚ) ≤ ((a % b : Int) : ℚ) := by exact_mod_cast Int.emod_nonneg a hb
    have h3 : ((a % b : Int) : ℚ) < -(b : ℚ) := by
      have := Int.emod_lt a hb
      rw [abs_of_neg h] at this
      exact_mod_cast this
    symm
    rw [Int.ceil_eq_iff]
    constructor
    · rw [lt_div_iff_of_neg hbq]; linarith
    · rw [div_le_iff_of_neg hbq]; linarith
  · rename_i h
    have hpos : 0 < b := by omega
    have hbq : (0 : ℚ) < (b : ℚ) := by exact_mod_cast hpos
    have h1 : (((-a) % b : Int) : ℚ) + (b : ℚ) * (((-a) / b : Int) : ℚ) = -(a : ℚ) := by
      exact_mod_cast Int.emod_add_ediv (-a) b
    have h2 : (0 : ℚ) ≤ (((-a) % b : Int) : ℚ) := by exact_mod_cast Int.emod_nonneg (-a) hb
    have h3 : (((-a) % b : Int) : ℚ) < (b : ℚ) := by
      exact_mod_cast Int.emod_lt_of_pos (-a) hpos
    symm
    rw [Int.ceil_eq_iff]
    constructor
    · rw [lt_div_iff₀ hbq]; push_cast; linarith
    · rw [div_le_iff₀ hbq]; push_cast; linarith

/-- When both store calls succeed the handler answers 200 with `listBody`. -/
theorem getRecords_of_ok (env : Env) (store : Store) (q : Query) (totalItems : Nat)
    (records : List Record)
    (hcount : store.countDocuments (buildFilter q) = Except.ok totalItems)
    (hfind : store.find (buildFilter q) (findWindow q) = Except.ok records) :
    getRecords env store q = ListResponse.ok (listBody env q totalItems records) := by
  simp [getRecords, hcount, hfind]

/-- A 200 response is `listBody` of a successful count and a successful
fetch, both made with the handler's filter. -/
theorem getRecords_ok_inv (env : Env) (store : Store) (q : Query) (body : ListBody)
    (h : getRecords env store q = ListResponse.ok body) :
    ∃ totalItems records,
      store.countDocuments (buildFilter q) = Except.ok totalItems ∧
      store.find (buildFilter q) (findWindow q) = Except.ok records ∧
      body = listBody env q totalItems records := by
  cases hc : store.countDocuments (buildFilter q) with
  | error e => simp [getRecords, hc] at h
  | ok t =>
    cases hf : store.find (buildFilter q) (findWindow q) with
    | error e => simp [getRecords, hc, hf] at h
    | ok rs =>
      simp only [getRecords, hc, hf, ListResponse.ok.injEq] at h
      exact ⟨t, rs, rfl, rfl, h.symm⟩

/-- The handler's `limit` is truthy with value `l` exactly when the raw
parameter is present, non-empty and parses to the non-zero integer `l`. -/
theorem truthyNum_limitOf_iff (q : Query) (l : Int) :
    truthyNum (limitOf q) = some l ↔
      ∃ s, getParam q "limit" = some s ∧ s ≠ "" ∧ parseInt s = JsNum.num l ∧ l ≠ 0 := by
  unfold limitOf
  cases hq : getParam q "limit" with
  | none => simp [truthyStr, truthyNum]
  | some s =>
    by_cases hs : s = ""
    · subst hs
      simp [truthyStr, truthyNum]
    · have hne : (s != "") = true := by simpa using hs
      simp only [truthyStr, hne, if_true, parseIntArg]
      constructor
      · intro h
        cases hp : parseInt s with
        | nan => rw [hp] at h; simp [truthyNum] at h
        | num n =>
          rw [hp] at h
          by_cases hn : n = 0
          · simp [truthyNum, hn] at h
          · simp only [truthyNum, hn, if_false, Option.some.injEq] at h
            subst h
            exact ⟨s, rfl, hs, hp, hn⟩
      · rintro ⟨s', hs', _, hp, hl⟩
        cases hs'
        rw [hp]
        simp [truthyNum, hl]

/-- A truthy `limit` in terms of `limitOf`. -/
theorem truthyNum_of_limitOf (q : Query) (l : Int) (h : limitOf q = some (JsNum.num l))
    (hl : l ≠ 0) : truthyNum (limitOf q) = some l := by
  rw [h]; simp [truthyNum, hl]

/-- When the raw `limit` is absent the handler's `limit` is `null`. -/
theorem limitOf_of_absent (q : Query) (h : getParam q "limit" = none) : limitOf q = none := by
  simp [limitOf, h, truthyStr]

/-- Counting in the list store always succeeds. -/
theorem listStore_count (db : List Record) (f : MongoFilter) :
    (listStore db).countDocuments f = Except.ok (db.filter (matchesFilter f)).length := rfl

/-! ## Total pages for a positive limit -/

/-- C1: when the parsed limit is at least 1 and the count query returns
`totalItems`, the listing answers 200 and reports
`totalPages = max 1 ⌈totalItems / limit⌉`. -/
theorem getRecords_totalPages_eq_max (env : Env) (store : Store) (q : Query) (limit : Int)
    (totalItems : Nat) (records : List Record)
    (hlimit : limitOf q = some (JsNum.num limit)) (hpos : 1 ≤ limit)
    (hcount : store.countDocuments (buildFilter q) = Except.ok totalItems)
    (hfind : store.find (buildFilter q) (findWindow q) = Except.ok records) :
    ∃ body, getRecords env store q = ListResponse.ok body ∧
      body.pagination.totalItems = totalItems ∧
      body.pagination.totalPages = max 1 (Int.ceil ((totalItems : ℚ) / (limit : ℚ))) := by
  have hne : limit ≠ 0 := by omega
  refine ⟨_, getRecords_of_ok env store q totalItems records hcount hfind, rfl, ?_⟩
  have hceil : (0 : Int) ≤ Int.ceil ((totalItems : ℚ) / (limit : ℚ)) := by
    apply Int.ceil_nonneg
    apply div_nonneg
    · exact Nat.cast_nonneg totalItems
    · exact_mod_cast (by omega : (0 : Int) ≤ limit)
  have hc := ceilDiv_eq_ceil (totalItems : Int) limit hne
  simp only [Int.cast_natCast] at hc
  simp only [listBody, totalPagesOf, truthyNum_of_limitOf q limit hlimit hne, orOne, hc]
  split
  · rename_i h0; rw [h0]; rfl
  · rename_i h0; rw [max_eq_right]; omega

/-- Witness for C1: 25 records and `limit=10`. -/
theorem getRecords_totalPages_eq_max_witness :
    limitOf [("limit", "10")] = some (JsNum.num 10) ∧
    ∃ body, getRecords sampleEnv (listStore (sampleDb 25)) [("limit", "10")] =
        ListResponse.ok body ∧
      body.pagination.totalItems = 25 ∧
      body.pagination.totalPages = max 1 (Int.ceil (((25 : Nat) : ℚ) / ((10 : Int) : ℚ))) :=
  ⟨by decide,
    getRecords_totalPages_eq_max sampleEnv (listStore (sampleDb 25)) [("limit", "10")] 10 25
      ((sampleDb 25).take 10) (by decide) (by decide) rfl rfl⟩

/-- The two scenarios of the specification: no items with `limit=10` give one
page, 25 items with `limit=10` give three. -/
theorem totalPagesOf_scenarios :
    totalPagesOf [("limit", "10")] 0 = 1 ∧ totalPagesOf [("limit", "10")] 25 = 3 := by
  decide

/-! ## Previous and next links -/

/-- C2, counterexample: the request `?limit=0&page=2` supplies a limit and
is on page 2, yet the 200 response carries `previous = null`. -/
theorem previous_null_with_supplied_limit :
    getParam [("limit", "0"), ("page", "2")] "limit" = some "0" ∧
    ∃ body, getRecords sampleEnv (listStore (sampleDb 3)) [("limit", "0"), ("page", "2")] =
        ListResponse.ok body ∧
      body.pagination.currentPage = 2 ∧ body.pagination.previous = none :=
  ⟨by decide, _, rfl, by decide, by decide⟩

/-- C2, amended: in every 200 response `previous` is non-null exactly when
the raw limit is present and parses to a non-zero integer and the current
page exceeds 1, and `next` is non-null exactly when the raw limit is present
and parses to a non-zero integer and the current page is below `totalPages`;
otherwise the field is null. -/
theorem getRecords_previous_next_iff (env : Env) (store : Store) (q : Query)
    (totalItems : Nat) (records : List Record)
    (hcount : store.countDocuments (buildFilter q) = Except.ok totalItems)
    (hfind : store.find (buildFilter q) (findWindow q) = Except.ok records) :
    ∃ body, getRecords env store q = ListResponse.ok body ∧
      (body.pagination.previous ≠ none ↔
        (∃ s l, getParam q "limit" = some s ∧ s ≠ "" ∧ parseInt s = JsNum.num l ∧ l ≠ 0) ∧
          1 < body.pagination.currentPage) ∧
      (body.pagination.next ≠ none ↔
        (∃ s l, getParam q "limit" = some s ∧ s ≠ "" ∧ parseInt s = JsNum.num l ∧ l ≠ 0) ∧
          body.pagination.currentPage < body.pagination.totalPages) := by
  refine ⟨_, getRecords_of_ok env store q totalItems records hcount hfind, ?_, ?_⟩
  · cases hl : truthyNum (limitOf q) with
    | none =>
      simp only [listBody, hl, ne_eq, not_true_eq_false, false_iff, not_and]
      rintro ⟨s, l, h⟩
      have := (truthyNum_limitOf_iff q l).mpr ⟨s, h⟩
      rw [hl] at this
      cases this
    | some l =>
      obtain ⟨s, h⟩ := (truthyNum_limitOf_iff q l).mp hl
      simp only [listBody, hl]
      constructor
      · intro hp
        refine ⟨⟨s, l, h⟩, ?_⟩
        by_contra hlt
        simp [hlt] at hp
      · rintro ⟨_, hlt⟩
        simp [hlt]
  · cases hl : truthyNum (limitOf q) with
    | none =>
      simp only [listBody, hl, ne_eq, not_true_eq_false, false_iff, not_and]
      rintro ⟨s, l, h⟩
      have := (truthyNum_limitOf_iff q l).mpr ⟨s, h⟩
      rw [hl] at this
      cases this
    | some l =>
      obtain ⟨s, h⟩ := (truthyNum_limitOf_iff q l).mp hl
      simp only [listBody, hl]
      constructor
      · intro hp
        refine ⟨⟨s, l, h⟩, ?_⟩
        by_contra hlt
        simp [hlt] at hp
      · rintro ⟨_, hlt⟩
        simp [hlt]

/-- Witness for C2: page 2 of 25 records with `limit=10` has both links. -/
theorem getRecords_previous_next_iff_witness :
    ∃ body, getRecords sampleEnv (listStore (sampleDb 25)) [("limit", "10"), ("page", "2")] =
        ListResponse.ok body ∧
      (body.pagination.previous ≠ none ↔
        (∃ s l, getParam [("limit", "10"), ("page", "2")] "limit" = some s ∧ s ≠ "" ∧
          parseInt s = JsNum.num l ∧ l ≠ 0) ∧
          1 < body.pagination.currentPage) ∧
      (body.pagination.next ≠ none ↔
        (∃ s l, getParam [("limit", "10"), ("page", "2")] "limit" = some s ∧ s ≠ "" ∧
          parseInt s = JsNum.num l ∧ l ≠ 0) ∧
          body.pagination.currentPage < body.pagination.totalPages) :=
  getRecords_previous_next_iff sampleEnv (listStore (sampleDb 25))
    [("limit", "10"), ("page", "2")] 25 (((sampleDb 25).drop 10).take 10) rfl rfl

/-! ## Listing without a limit -/

/-- C3: when the `limit` parameter is absent, no skip or limit is applied:
over a list store the listing answers 200 with every record matching the
filter, `currentItems = totalItems`, `totalPages = 1`, no previous and no next
link, and `first` and `last` both carry the self link. -/
theorem getRecords_without_limit (env : Env) (db : List Record) (q : Query)
    (hlimit : getParam q "limit" = none) :
    findWindow q = none ∧
    ∃ body, getRecords env (listStore db) q = ListResponse.ok body ∧
      body.items = (db.filter (matchesFilter (buildFilter q))).map (toItem env) ∧
      body.pagination.currentItems = body.pagination.totalItems ∧
      body.pagination.totalPages = 1 ∧
      body.pagination.previous = none ∧
      body.pagination.next = none ∧
      body.pagination.first.href = body.selfHref ∧
      body.pagination.last.href = body.selfHref := by
  have hl : truthyNum (limitOf q) = none := by
    rw [limitOf_of_absent q hlimit]; rfl
  have hw : findWindow q = none := by simp [findWindow, hl]
  have hfind : (listStore db).find (buildFilter q) (findWindow q)
      = Except.ok (db.filter (matchesFilter (buildFilter q))) := by
    rw [hw]; rfl
  refine ⟨hw, _, getRecords_of_ok env (listStore db) q _ _ (listStore_count db _) hfind, ?_⟩
  simp [listBody, hl, totalPagesOf]

/-- Witness for C3: page 7 requested without a limit. -/
theorem getRecords_without_limit_witness :
    getParam [("page", "7"), ("stroke", "butterfly")] "limit" = none ∧
    findWindow [("page", "7"), ("stroke", "butterfly")] = none ∧
    ∃ body, getRecords sampleEnv (listStore (sampleDb 5))
        [("page", "7"), ("stroke", "butterfly")] = ListResponse.ok body ∧
      body.items = ((sampleDb 5).filter
        (matchesFilter (buildFilter [("page", "7"), ("stroke", "butterfly")]))).map
          (toItem sampleEnv) ∧
      body.pagination.currentItems = body.pagination.totalItems ∧
      body.pagination.totalPages = 1 ∧
      body.pagination.previous = none ∧
      body.pagination.next = none ∧
      body.pagination.first.href = body.selfHref ∧
      body.pagination.last.href = body.selfHref :=
  ⟨by decide, getRecords_without_limit sampleEnv (sampleDb 5)
    [("page", "7"), ("stroke", "butterfly")] (by decide)⟩

/-! ## The page window -/

/-- The window handed to the store when the handler's `limit` is truthy. -/
theorem findWindow_of_limit (q : Query) (l : Int) (h : truthyNum (limitOf q) = some l) :
    findWindow q = some ((pageOf q - 1) * l, l) := by
  simp [findWindow, h]

/-- The list store answers a window with a non-negative skip and a positive
limit by dropping `skip` matching records and taking `limit` of the rest. -/
theorem listStore_find_window (db : List Record) (f : MongoFilter) (skip limit : Int)
    (hskip : 0 ≤ skip) (hlimit : 1 ≤ limit) :
    (listStore db).find f (some (skip, limit)) =
      Except.ok (((db.filter (matchesFilter f)).drop skip.toNat).take limit.toNat) := by
  have h1 : ¬ skip < 0 := by omega
  have h2 : limit ≠ 0 := by omega
  have h3 : limit.natAbs = limit.toNat := by omega
  simp [listStore, h1, h2, h3]

/-- C4: over a list store, with a parsed limit of at least 1 and a page of at
least 1, the listing answers 200 with the matching records after skipping
`(page - 1) * limit` of them, at most `limit` many, so that
`currentItems = min limit (max 0 (totalItems - (page - 1) * limit))`; a page
past the last one gives an empty list of items, still with status 200. -/
theorem getRecords_page_window (env : Env) (db : List Record) (q : Query) (limit : Int)
    (hlimit : limitOf q = some (JsNum.num limit)) (hpos : 1 ≤ limit) (hpage : 1 ≤ pageOf q) :
    ∃ body, getRecords env (listStore db) q = ListResponse.ok body ∧
      body.items =
        (((db.filter (matchesFilter (buildFilter q))).drop ((pageOf q - 1) * limit).toNat).take
          limit.toNat).map (toItem env) ∧
      body.pagination.totalItems = (db.filter (matchesFilter (buildFilter q))).length ∧
      (body.pagination.currentItems : Int) =
        min limit (max 0 ((body.pagination.totalItems : Int) - (pageOf q - 1) * limit)) ∧
      ((body.pagination.totalItems : Int) ≤ (pageOf q - 1) * limit → body.items = []) := by
  have hne : limit ≠ 0 := by omega
  have hskip : 0 ≤ (pageOf q - 1) * limit := by
    apply mul_nonneg <;> omega
  have hfind : (listStore db).find (buildFilter q) (findWindow q) =
      Except.ok (((db.filter (matchesFilter (buildFilter q))).drop
        ((pageOf q - 1) * limit).toNat).take limit.toNat) := by
    rw [findWindow_of_limit q limit (truthyNum_of_limitOf q limit hlimit hne)]
    exact listStore_find_window db _ _ _ hskip hpos
  refine ⟨_, getRecords_of_ok env (listStore db) q _ _ (listStore_count db _) hfind,
    rfl, rfl, ?_, ?_⟩
  · simp only [listBody, List.length_map, List.length_take, List.length_drop]
    omega
  · intro hle
    simp only [listBody] at hle ⊢
    have : (db.filter (matchesFilter (buildFilter q))).length
        ≤ ((pageOf q - 1) * limit).toNat := by omega
    simp [List.drop_eq_nil_of_le this]

/-- Witness for C4: 25 records, `limit=10`, page 3. -/
theorem getRecords_page_window_witness :
    limitOf [("limit", "10"), ("page", "3")] = some (JsNum.num 10) ∧
    pageOf [("limit", "10"), ("page", "3")] = 3 ∧
    ∃ body, getRecords sampleEnv (listStore (sampleDb 25)) [("limit", "10"), ("page", "3")] =
        ListResponse.ok body ∧
      body.items =
        ((((sampleDb 25).filter
          (matchesFilter (buildFilter [("limit", "10"), ("page", "3")]))).drop
            ((pageOf [("limit", "10"), ("page", "3")] - 1) * 10).toNat).take
              (10 : Int).toNat).map (toItem sampleEnv) ∧
      body.pagination.totalItems =
        ((sampleDb 25).filter
          (matchesFilter (buildFilter [("limit", "10"), ("page", "3")]))).length ∧
      (body.pagination.currentItems : Int) =
        min 10 (max 0 ((body.pagination.totalItems : Int) -
          (pageOf [("limit", "10"), ("page", "3")] - 1) * 10)) ∧
      ((body.pagination.totalItems : Int) ≤
          (pageOf [("limit", "10"), ("page", "3")] - 1) * 10 → body.items = []) :=
  ⟨by decide, by decide,
    getRecords_page_window sampleEnv (sampleDb 25) [("limit", "10"), ("page", "3")] 10
      (by decide) (by decide) (by decide)⟩

/-- The scenarios of the specification over 25 records with `limit=10`:
page 2 holds 10 items, page 3 holds 5, and page 4 is an empty 200 response. -/
theorem getRecords_page_scenarios :
    (∃ body, getRecords sampleEnv (listStore (sampleDb 25)) [("limit", "10"), ("page", "2")] =
        ListResponse.ok body ∧ body.pagination.currentItems = 10 ∧
        body.pagination.totalPages = 3) ∧
    (∃ body, getRecords sampleEnv (listStore (sampleDb 25)) [("limit", "10"), ("page", "3")] =
        ListResponse.ok body ∧ body.pagination.currentItems = 5 ∧
        body.pagination.next = none) ∧
    (∃ body, getRecords sampleEnv (listStore (sampleDb 25)) [("limit", "10"), ("page", "4")] =
        ListResponse.ok body ∧ body.items = []) :=
  ⟨⟨_, rfl, by decide, by decide⟩, ⟨_, rfl, by decide, by decide⟩, ⟨_, rfl, by decide⟩⟩

/-! ## The page number -/

/-- A character that is not a decimal digit ends the digits of radix 10. -/
theorem takeDigits_ten_of_not_digit (c : Char) (cs : List Char)
    (hc : ¬ (48 ≤ c.toNat ∧ c.toNat ≤ 57)) : takeDigits 10 (c :: cs) = [] := by
  unfold takeDigits digitValue
  simp only [hc, if_false]
  split_ifs <;> simp <;> omega

/-- A string that does not start with a decimal digit keeps radix 10. -/
theorem splitRadix_of_not_digit (c : Char) (cs : List Char)
    (hc : ¬ (48 ≤ c.toNat ∧ c.toNat ≤ 57)) : splitRadix (c :: cs) = (10, c :: cs) := by
  have h0 : c ≠ '0' := by
    intro h; subst h; exact hc (by decide)
  cases cs with
  | nil => rfl
  | cons d ds => simp [splitRadix, h0]

/-- A non-numeric string parses to `NaN`. -/
theorem parseInt_of_isNonNumeric (s : String) (h : isNonNumeric s = true) :
    parseInt s = JsNum.nan := by
  unfold isNonNumeric at h
  unfold parseInt parseIntChars
  generalize splitSign (s.toList.dropWhile isJsWhitespace) = sg at h ⊢
  obtain ⟨neg, rest⟩ := sg
  cases rest with
  | nil => simp [splitRadix, takeDigits]
  | cons c cs =>
    have hc : ¬ (48 ≤ c.toNat ∧ c.toNat ≤ 57) := by
      intro hh
      simp [hh.1, hh.2] at h
    simp only [splitRadix_of_not_digit c cs hc, takeDigits_ten_of_not_digit c cs hc]

/-- Only a string with a leading minus sign parses to a negative integer. -/
theorem parseInt_neg_startsWithMinus (s : String) (n : Int) (h : parseInt s = JsNum.num n)
    (hn : n < 0) : startsWithMinus s = true := by
  unfold parseInt parseIntChars at h
  unfold startsWithMinus
  generalize s.toList.dropWhile isJsWhitespace = cs at h ⊢
  simp only at h
  split at h
  · cases h
  · rename_i d ds hd
    simp only [JsNum.num.injEq] at h
    cases cs with
    | nil => simp [splitSign] at h; omega
    | cons c cs =>
      simp only [splitSign] at h
      by_cases h1 : c = '-'
      · simp [h1]
      · exfalso
        by_cases h2 : c = '+'
        · simp [h1, h2] at h; omega
        · simp [h1, h2] at h; omega

/-- C5, counterexample: the raw page `-2` is neither absent nor non-numeric
and the handler uses and reports the page number `-2`, which is not
positive. -/
theorem currentPage_negative_for_negative_numeral :
    pageOf [("page", "-2")] = -2 ∧
    ∃ body, getRecords sampleEnv (listStore (sampleDb 3)) [("page", "-2")] =
        ListResponse.ok body ∧
      body.pagination.currentPage = -2 ∧ ¬ (1 ≤ body.pagination.currentPage) :=
  ⟨by decide, _, rfl, by decide, by decide⟩

/-- C5, amended: for a raw page value in the safe range (absent,
non-numeric, or a numeral of magnitude below `2 ^ 53`), the page number that
the handler uses for the skip and reports as `currentPage` is a non-zero safe
integer; it is 1 when the raw value is absent, non-numeric or parses to zero;
otherwise it is the integer the raw value parses to, which is at least 1
unless the raw value starts, after white space, with a minus sign, and is
negative for a negative numeral. -/
theorem pageOf_coercion (env : Env) (store : Store) (q : Query)
    (hsafe : inSafeRange (getParam q "page") = true) :
    pageOf q ≠ 0 ∧
    isSafeInteger (pageOf q) = true ∧
    (getParam q "page" = none → pageOf q = 1) ∧
    (∀ s, getParam q "page" = some s → isNonNumeric s = true → pageOf q = 1) ∧
    (∀ s, getParam q "page" = some s → parseInt s = JsNum.num 0 → pageOf q = 1) ∧
    (∀ s n, getParam q "page" = some s → parseInt s = JsNum.num n → n ≠ 0 → pageOf q = n) ∧
    (∀ s, getParam q "page" = some s → startsWithMinus s = false → 1 ≤ pageOf q) ∧
    (∀ s n, getParam q "page" = some s → parseInt s = JsNum.num n → n < 0 →
      startsWithMinus s = true ∧ pageOf q = n ∧ pageOf q < 0) ∧
    (pageOf q < 0 →
      ∃ s, getParam q "page" = some s ∧ startsWithMinus s = true ∧
        parseInt s = JsNum.num (pageOf q)) ∧
    (∀ l, truthyNum (limitOf q) = some l → findWindow q = some ((pageOf q - 1) * l, l)) ∧
    (∀ body, getRecords env store q = ListResponse.ok body →
      body.pagination.currentPage = pageOf q) := by
  have key : ∀ s, getParam q "page" = some s → ∀ n, parseInt s = JsNum.num n →
      pageOf q = if n = 0 then 1 else n := by
    intro s hs n hn
    simp [pageOf, hs, parseIntArg, hn, orOne]
  have hone : isSafeInteger 1 = true := by decide
  refine ⟨?_, ?_, ?_, ?_, ?_, ?_, ?_, ?_, ?_, ?_, ?_⟩
  · unfold pageOf orOne
    split
    · split <;> omega
    · decide
  · unfold pageOf
    unfold inSafeRange at hsafe
    cases hp : parseIntArg (getParam q "page") with
    | nan => exact hone
    | num n =>
      rw [hp] at hsafe
      simp only [orOne]
      split
      · exact hone
      · exact hsafe
  · intro h
    rw [pageOf, h]
    decide
  · intro s hs hnn
    simp [pageOf, hs, parseIntArg, parseInt_of_isNonNumeric s hnn, orOne]
  · intro s hs h0
    simpa using key s hs 0 h0
  · intro s n hs hp hn
    rw [key s hs n hp, if_neg hn]
  · intro s hs hm
    cases hp : parseInt s with
    | nan => simp [pageOf, hs, parseIntArg, hp, orOne]
    | num n =>
      rw [key s hs n hp]
      by_cases hn : n < 0
      · rw [parseInt_neg_startsWithMinus s n hp hn] at hm
        cases hm
      · split <;> omega
  · intro s n hs hp hn
    have hk := key s hs n hp
    rw [if_neg (by omega : ¬ n = 0)] at hk
    exact ⟨parseInt_neg_startsWithMinus s n hp hn, hk, by omega⟩
  · intro hneg
    cases hq : getParam q "page" with
    | none =>
      have h1 : pageOf q = 1 := by rw [pageOf, hq]; decide
      omega
    | some s =>
      cases hp : parseInt s with
      | nan => simp [pageOf, hq, parseIntArg, hp, orOne] at hneg
      | num n =>
        have hk := key s hq n hp
        by_cases hn : n = 0
        · rw [hk, if_pos hn] at hneg
          omega
        · rw [if_neg hn] at hk
          rw [hk] at hneg ⊢
          exact ⟨s, rfl, parseInt_neg_startsWithMinus s n hp hneg, hp⟩
  · intro l hl
    exact findWindow_of_limit q l hl
  · intro body hbody
    obtain ⟨t, rs, _, _, hb⟩ := getRecords_ok_inv env store q body hbody
    rw [hb]
    rfl

/-- Witness for C5: the raw page `7abc` (trailing garbage) is in the safe
range and gives page 7, and the raw page `-2` gives page -2. -/
theorem pageOf_coercion_witness :
    (inSafeRange (getParam [("page", "7abc")] "page") = true ∧
      pageOf [("page", "7abc")] = 7 ∧ 1 ≤ pageOf [("page", "7abc")]) ∧
    (inSafeRange (getParam [("page", "-2")] "page") = true ∧
      startsWithMinus "-2" = true ∧ pageOf [("page", "-2")] = -2 ∧
      pageOf [("page", "-2")] < 0) :=
  ⟨⟨by decide,
      (pageOf_coercion sampleEnv (listStore (sampleDb 3)) [("page", "7abc")]
        (by decide)).2.2.2.2.2.1 "7abc" 7 (by decide) (by decide) (by decide),
      (pageOf_coercion sampleEnv (listStore (sampleDb 3)) [("page", "7abc")]
        (by decide)).2.2.2.2.2.2.1 "7abc" (by decide) (by decide)⟩,
    ⟨by decide,
      (pageOf_coercion sampleEnv (listStore (sampleDb 3)) [("page", "-2")]
        (by decide)).2.2.2.2.2.2.2.1 "-2" (-2) (by decide) (by decide) (by decide)⟩⟩

/-! ## When the listing is unbounded -/

/-- C6, counterexample: the request `?limit=0` has the limit parameter
present, yet the handler hands no skip and no limit to the store and answers
as for an unbounded listing: all three records, one page, no previous and no
next link. -/
theorem zero_limit_is_unbounded :
    getParam [("limit", "0")] "limit" = some "0" ∧
    findWindow [("limit", "0")] = none ∧
    ∃ body, getRecords sampleEnv (listStore (sampleDb 3)) [("limit", "0")] =
        ListResponse.ok body ∧
      body.items = (sampleDb 3).map (toItem sampleEnv) ∧
      body.pagination.totalPages = 1 ∧
      body.pagination.previous = none ∧ body.pagination.next = none :=
  ⟨by decide, by decide, _, rfl, by decide, by decide, by decide, by decide⟩

/-- C6, amended: the handler treats the request as unbounded (no skip and no
limit handed to the store, `totalPages = 1`, no previous and no next link)
exactly when the limit parameter is absent or its value does not parse to a
non-zero integer (it parses to `NaN`, as the empty string does, or to zero);
a limit that is present and parses to a non-zero integer `l` is paginated
with skip `(page - 1) * l` and limit `l`. -/
theorem findWindow_none_iff (env : Env) (store : Store) (q : Query) :
    (findWindow q = none ↔
      getParam q "limit" = none ∨
        ∃ s, getParam q "limit" = some s ∧
          (parseInt s = JsNum.nan ∨ parseInt s = JsNum.num 0)) ∧
    (∀ s l, getParam q "limit" = some s → parseInt s = JsNum.num l → l ≠ 0 →
      findWindow q = some ((pageOf q - 1) * l, l)) ∧
    (∀ body, findWindow q = none → getRecords env store q = ListResponse.ok body →
      (∃ totalItems records,
        store.find (buildFilter q) none = Except.ok records ∧
        body = listBody env q totalItems records) ∧
      body.pagination.totalPages = 1 ∧
      body.pagination.previous = none ∧ body.pagination.next = none) := by
  have hnan : parseInt "" = JsNum.nan := by decide
  have hwin : findWindow q = none ↔ truthyNum (limitOf q) = none := by
    unfold findWindow
    cases truthyNum (limitOf q) <;> simp
  refine ⟨?_, ?_, ?_⟩
  · rw [hwin]
    constructor
    · intro h
      cases hq : getParam q "limit" with
      | none => exact Or.inl rfl
      | some s =>
        right
        refine ⟨s, rfl, ?_⟩
        cases hp : parseInt s with
        | nan => exact Or.inl rfl
        | num n =>
          right
          by_cases hn : n = 0
          · rw [hn]
          · have hs : s ≠ "" := by
              intro he
              rw [he, hnan] at hp
              cases hp
            have := (truthyNum_limitOf_iff q n).mpr ⟨s, hq, hs, hp, hn⟩
            rw [h] at this
            cases this
    · intro h
      cases ht : truthyNum (limitOf q) with
      | none => rfl
      | some l =>
        obtain ⟨s, hs, _, hp, hl⟩ := (truthyNum_limitOf_iff q l).mp ht
        rcases h with h | ⟨s', hs', h | h⟩
        · rw [h] at hs; cases hs
        · rw [hs] at hs'; cases hs'; rw [hp] at h; cases h
        · rw [hs] at hs'; cases hs'; rw [hp] at h; cases h; exact absurd rfl hl
  · intro s l hs hp hl
    have hne : s ≠ "" := by
      intro he
      rw [he, hnan] at hp
      cases hp
    exact findWindow_of_limit q l ((truthyNum_limitOf_iff q l).mpr ⟨s, hs, hne, hp, hl⟩)
  · intro body hw hbody
    obtain ⟨t, rs, _, hf, hb⟩ := getRecords_ok_inv env store q body hbody
    have ht := hwin.mp hw
    rw [hw] at hf
    refine ⟨⟨t, rs, hf, hb⟩, ?_⟩
    rw [hb]
    simp [listBody, totalPagesOf, ht]

/-- Witness for C6: `limit=5` on page 3 is paginated with skip 10 and
limit 5. -/
theorem findWindow_none_iff_witness :
    findWindow [("limit", "5"), ("page", "3")] = some ((3 - 1) * 5, 5) :=
  (findWindow_none_iff sampleEnv (listStore (sampleDb 3)) [("limit", "5"), ("page", "3")]).2.1
    "5" 5 (by decide) (by decide) (by decide)

/-! ## Total pages for any non-zero limit -/

/-- C7, counterexample: with 25 records and `limit=-10` the 200 response
reports `totalPages = -2`, so `last.page` is below `first.page = 1`. -/
theorem totalPages_negative_for_negative_limit :
    limitOf [("limit", "-10")] = some (JsNum.num (-10)) ∧
    totalPagesOf [("limit", "-10")] 25 = -2 ∧
    ∃ body, getRecords sampleEnv (listStore (sampleDb 25)) [("limit", "-10")] =
        ListResponse.ok body ∧
      body.pagination.totalItems = 25 ∧
      body.pagination.totalPages = -2 ∧
      body.pagination.first.page = 1 ∧ body.pagination.last.page = -2 :=
  ⟨by decide, by decide, _, rfl, by decide, by decide, by decide, by decide⟩

/-- C7, amended: whenever the limit is present and parses to a non-zero
integer `l`, the reported `totalPages` is `⌈totalItems / l⌉`, replaced by 1
when that is zero, and `first.page = 1`, `last.page = totalPages`.  For
`l ≥ 1` this gives `totalPages ≥ 1` and `last.page ≥ first.page`; for a
negative `l` it gives 1 when `totalItems < -l` and at most `-1` otherwise. -/
theorem getRecords_totalPages_nonzero_limit (env : Env) (store : Store) (q : Query)
    (l : Int) (totalItems : Nat) (records : List Record)
    (hlimit : limitOf q = some (JsNum.num l)) (hl : l ≠ 0)
    (hcount : store.countDocuments (buildFilter q) = Except.ok totalItems)
    (hfind : store.find (buildFilter q) (findWindow q) = Except.ok records) :
    ∃ body, getRecords env store q = ListResponse.ok body ∧
      body.pagination.totalPages =
        (if Int.ceil ((totalItems : ℚ) / (l : ℚ)) = 0 then 1
          else Int.ceil ((totalItems : ℚ) / (l : ℚ))) ∧
      body.pagination.first.page = 1 ∧
      body.pagination.last.page = body.pagination.totalPages ∧
      (1 ≤ l → 1 ≤ body.pagination.totalPages ∧
        body.pagination.first.page ≤ body.pagination.last.page) ∧
      (l < 0 → (totalItems : Int) < -l → body.pagination.totalPages = 1) ∧
      (l < 0 → -l ≤ (totalItems : Int) → body.pagination.totalPages ≤ -1) := by
  have hc := ceilDiv_eq_ceil (totalItems : Int) l hl
  simp only [Int.cast_natCast] at hc
  have htp : (listBody env q totalItems records).pagination.totalPages =
      (if Int.ceil ((totalItems : ℚ) / (l : ℚ)) = 0 then 1
        else Int.ceil ((totalItems : ℚ) / (l : ℚ))) := by
    simp only [listBody, totalPagesOf, truthyNum_of_limitOf q l hlimit hl, orOne, hc]
  have hn : (0 : ℚ) ≤ (totalItems : ℚ) := Nat.cast_nonneg totalItems
  refine ⟨_, getRecords_of_ok env store q totalItems records hcount hfind, htp, rfl, rfl,
    ?_, ?_, ?_⟩
  · intro hpos
    have hceil : (0 : Int) ≤ Int.ceil ((totalItems : ℚ) / (l : ℚ)) := by
      apply Int.ceil_nonneg
      apply div_nonneg hn
      exact_mod_cast (by omega : (0 : Int) ≤ l)
    have h1 : 1 ≤ (listBody env q totalItems records).pagination.totalPages := by
      rw [htp]; split <;> omega
    exact ⟨h1, h1⟩
  · intro hneg hlt
    have hlq : (l : ℚ) < 0 := by exact_mod_cast hneg
    have htq : (totalItems : ℚ) < -(l : ℚ) := by exact_mod_cast hlt
    have h0 : Int.ceil ((totalItems : ℚ) / (l : ℚ)) = 0 := by
      rw [Int.ceil_eq_iff]
      constructor
      · rw [lt_div_iff_of_neg hlq]; push_cast; linarith
      · rw [div_le_iff_of_neg hlq]; push_cast; linarith
    rw [htp, if_pos h0]
  · intro hneg hle
    have hlq : (l : ℚ) < 0 := by exact_mod_cast hneg
    have htq : -(l : ℚ) ≤ (totalItems : ℚ) := by exact_mod_cast hle
    have h1 : Int.ceil ((totalItems : ℚ) / (l : ℚ)) ≤ -1 := by
      rw [Int.ceil_le, div_le_iff_of_neg hlq]
      push_cast
      linarith
    rw [htp]
    split <;> omega

/-- Witness for C7: 25 records and `limit=10`. -/
theorem getRecords_totalPages_nonzero_limit_witness :
    limitOf [("limit", "10"), ("page", "2")] = some (JsNum.num 10) ∧
    ∃ body, getRecords sampleEnv (listStore (sampleDb 25)) [("limit", "10"), ("page", "2")] =
        ListResponse.ok body ∧
      body.pagination.totalPages =
        (if Int.ceil (((25 : Nat) : ℚ) / ((10 : Int) : ℚ)) = 0 then 1
          else Int.ceil (((25 : Nat) : ℚ) / ((10 : Int) : ℚ))) ∧
      body.pagination.first.page = 1 ∧
      body.pagination.last.page = body.pagination.totalPages ∧
      ((1 : Int) ≤ 10 → 1 ≤ body.pagination.totalPages ∧
        body.pagination.first.page ≤ body.pagination.last.page) ∧
      ((10 : Int) < 0 → ((25 : Nat) : Int) < -10 → body.pagination.totalPages = 1) ∧
      ((10 : Int) < 0 → -10 ≤ ((25 : Nat) : Int) → body.pagination.totalPages ≤ -1) :=
  ⟨by decide,
    getRecords_totalPages_nonzero_limit sampleEnv (listStore (sampleDb 25))
      [("limit", "10"), ("page", "2")] 10 25 (((sampleDb 25).drop 10).take 10)
      (by decide) (by decide) rfl rfl⟩

/-! ## The two embeddings of the listing agree -/

/-- Reading a property of a string-valued query. -/
theorem rawGetParam_ofQuery (q : Query) (k : String) :
    rawGetParam (ofQuery q) k = (getParam q k).map QueryValue.str := by
  induction q with
  | nil => rfl
  | cons kv rest ih =>
    obtain ⟨k', v'⟩ := kv
    simp only [rawGetParam, getParam, ofQuery, List.map_cons, List.lookup] at ih ⊢
    cases k == k' with
    | true => rfl
    | false => exact ih

/-- Writing a string property commutes with the embedding of queries. -/
theorem rawSetParam_ofQuery (q : Query) (k v : String) :
    rawSetParam k (QueryValue.str v) (ofQuery q) = ofQuery (setParam k v q) := by
  induction q with
  | nil => rfl
  | cons kv rest ih =>
    obtain ⟨k', v'⟩ := kv
    simp only [ofQuery, List.map_cons, rawSetParam, setParam] at ih ⊢
    by_cases h : k' = k
    · simp [h]
    · simp [h, ih]

/-- Serialization of a string-valued query. -/
theorem rawStringify_ofQuery (q : Query) : rawStringify (ofQuery q) = stringify q := by
  unfold rawStringify stringify ofQuery
  congr 1
  induction q with
  | nil => rfl
  | cons kv rest ih =>
    rw [List.map_cons, List.map_cons, List.flatMap_cons, ih]
    rfl

/-- Truthiness of a property of a string-valued query. -/
theorem truthyValue_ofQuery (q : Query) (k : String) :
    truthyValue (rawGetParam (ofQuery q) k) = truthyStr (getParam q k) := by
  rw [rawGetParam_ofQuery]
  cases getParam q k <;> rfl

/-- The argument of `parseInt` for a property of a string-valued query. -/
theorem valueToString_ofQuery (q : Query) (k : String) :
    (rawGetParam (ofQuery q) k).map valueToString = getParam q k := by
  rw [rawGetParam_ofQuery]
  cases getParam q k <;> rfl

/-- The filter of a string-valued query. -/
theorem rawBuildFilter_ofQuery (q : Query) :
    rawBuildFilter (ofQuery q) = ofFilter (buildFilter q) := by
  have h : ∀ v : Option String,
      (if truthyValue (v.map QueryValue.str) then v.map QueryValue.str else none) =
        (if truthyStr v then v else none).map QueryValue.str := by
    intro v
    cases v with
    | none => rfl
    | some s =>
      by_cases hs : (s != "") = true
      · simp only [Option.map_some', truthyValue, truthyStr, hs, if_true]
      · simp only [Option.map_some', truthyValue, truthyStr, hs, Bool.false_eq_true, if_false,
          Option.map_none']
  simp only [rawBuildFilter, buildFilter, ofFilter, rawGetParam_ofQuery, h]

/-- The page of a string-valued query. -/
theorem rawPageOf_ofQuery (q : Query) : rawPageOf (ofQuery q) = pageOf q := by
  simp only [rawPageOf, pageOf, valueToString_ofQuery]

/-- The limit of a string-valued query. -/
theorem rawLimitOf_ofQuery (q : Query) : rawLimitOf (ofQuery q) = limitOf q := by
  simp only [rawLimitOf, limitOf, valueToString_ofQuery, truthyValue_ofQuery]

/-- The response body of a string-valued query. -/
theorem rawListBody_ofQuery (env : Env) (q : Query) (totalItems : Nat)
    (records : List Record) :
    rawListBody env (ofQuery q) totalItems records = listBody env q totalItems records := by
  simp only [rawListBody, listBody, rawTotalPagesOf, totalPagesOf, rawSelfLink, selfLink,
    rawPageHref, pageHref, buildPageLink, pageParams, rawPageOf_ofQuery, rawLimitOf_ofQuery,
    rawStringify_ofQuery, rawSetParam_ofQuery]

/-- On a request whose parameters are all single strings, the handler with
array values is the handler with string values. -/
theorem getRecordsRaw_ofQuery (env : Env) (store : RawStore) (q : Query) :
    getRecordsRaw env store (ofQuery q) = getRecords env (stringStore store) q := by
  simp only [getRecordsRaw, getRecords, stringStore, rawBuildFilter_ofQuery, rawFindWindow,
    findWindow, rawPageOf_ofQuery, rawLimitOf_ofQuery, rawListBody_ofQuery]

/-- Matching against a string-valued filter. -/
theorem rawMatchesFilter_ofFilter (f : MongoFilter) (r : Record) :
    rawMatchesFilter (ofFilter f) r = matchesFilter f r := by
  obtain ⟨s, d⟩ := f
  cases s <;> cases d <;> rfl

/-- The list store with array values provides the list store with string
values. -/
theorem stringStore_rawListStore (db : List Record) :
    stringStore (rawListStore db) = listStore db := by
  have h : ∀ f, rawMatchesFilter (ofFilter f) = matchesFilter f :=
    fun f => funext (rawMatchesFilter_ofFilter f)
  simp only [stringStore, rawListStore, listStore, h]

/-! ## The storage filter -/

/-- A 200 response to a query with array values is `rawListBody` of a
successful count and a successful fetch, both made with the handler's
filter. -/
theorem getRecordsRaw_ok_inv (env : Env) (store : RawStore) (q : RawQuery) (body : ListBody)
    (h : getRecordsRaw env store q = ListResponse.ok body) :
    ∃ totalItems records,
      store.countDocuments (rawBuildFilter q) = Except.ok totalItems ∧
      store.find (rawBuildFilter q) (rawFindWindow q) = Except.ok records ∧
      body = rawListBody env q totalItems records := by
  cases hc : store.countDocuments (rawBuildFilter q) with
  | error e => simp [getRecordsRaw, hc] at h
  | ok t =>
    cases hf : store.find (rawBuildFilter q) (rawFindWindow q) with
    | error e => simp [getRecordsRaw, hc, hf] at h
    | ok rs =>
      simp only [getRecordsRaw, hc, hf, ListResponse.ok.injEq] at h
      exact ⟨t, rs, rfl, rfl, h.symm⟩

/-- When both store calls succeed the handler answers 200 with
`rawListBody`. -/
theorem getRecordsRaw_of_ok (env : Env) (store : RawStore) (q : RawQuery) (totalItems : Nat)
    (records : List Record)
    (hcount : store.countDocuments (rawBuildFilter q) = Except.ok totalItems)
    (hfind : store.find (rawBuildFilter q) (rawFindWindow q) = Except.ok records) :
    getRecordsRaw env store q = ListResponse.ok (rawListBody env q totalItems records) := by
  simp [getRecordsRaw, hcount, hfind]

/-- A field of the filter holds exactly a present value other than the empty
string. -/
theorem rawFilterField_eq_some_iff (v : Option QueryValue) (w : QueryValue) :
    (if truthyValue v then v else none) = some w ↔ v = some w ∧ w ≠ QueryValue.str "" := by
  cases v with
  | none => simp [truthyValue]
  | some u =>
    cases u with
    | str s =>
      by_cases hs : s = ""
      · subst hs
        simp only [truthyValue, bne_self_eq_false, Bool.false_eq_true, if_false,
          Option.some.injEq]
        constructor
        · intro h
          cases h
        · rintro ⟨h1, h2⟩
          exact absurd h1.symm h2
      · have hne : (s != "") = true := by simpa using hs
        simp only [truthyValue, hne, if_true, Option.some.injEq]
        constructor
        · intro h
          subst h
          exact ⟨rfl, by simpa using hs⟩
        · intro h
          exact h.1
    | arr x xs =>
      simp only [truthyValue, if_true, Option.some.injEq]
      constructor
      · intro h
        subst h
        exact ⟨rfl, by simp⟩
      · intro h
        exact h.1

/-- Whatever the list store returns is a sublist of the records that match
the filter. -/
theorem rawListStore_find_sublist (db : List Record) (f : RawFilter)
    (window : Option (Int × Int)) (records : List Record)
    (h : (rawListStore db).find f window = Except.ok records) :
    List.Sublist records (db.filter (rawMatchesFilter f)) := by
  cases window with
  | none =>
    simp only [rawListStore, Except.ok.injEq] at h
    rw [← h]
  | some w =>
    obtain ⟨skip, limit⟩ := w
    simp only [rawListStore] at h
    split_ifs at h with h1 h2
    · simp only [Except.ok.injEq] at h
      rw [← h]
      exact List.drop_sublist _ _
    · simp only [Except.ok.injEq] at h
      rw [← h]
      exact (List.take_sublist _ _).trans (List.drop_sublist _ _)

/-- C8, counterexample: the request `?stroke=butterfly&stroke=freestyle`
reaches the handler with an array as `stroke`; the array is copied into the
filter, the store matches it as membership, and the 200 response lists
freestyle items although the request carries `stroke=butterfly`. -/
theorem repeated_stroke_lists_other_strokes :
    rawGetParam [("stroke", QueryValue.arr "butterfly" ["freestyle"])] "stroke" =
      some (QueryValue.arr "butterfly" ["freestyle"]) ∧
    (rawBuildFilter [("stroke", QueryValue.arr "butterfly" ["freestyle"])]).stroke =
      some (QueryValue.arr "butterfly" ["freestyle"]) ∧
    ∃ body, getRecordsRaw sampleEnv (rawListStore (sampleDb 4))
        [("stroke", QueryValue.arr "butterfly" ["freestyle"])] = ListResponse.ok body ∧
      body.selfHref = "http://localhost:8000/records?stroke=butterfly&stroke=freestyle" ∧
      body.items.map Item.stroke = ["freestyle", "butterfly", "freestyle", "butterfly"] :=
  ⟨by decide, by decide, _, rfl, by decide, by decide⟩

/-- C8, amended: the filter built by the listing holds for `stroke`
(respectively `distance`) the query value itself exactly when that value is
present and not the empty string, and nothing otherwise; a single string is
matched by exact equality, an array (a repeated parameter) by membership; the
count and the fetch are made with that same filter.  Over a list store a
request whose `stroke` is the single non-empty string `x` is answered with
items of stroke `x` only, a request without `stroke` and `distance` counts all
records and lists them all, up to the page window, and the answer is 200
whenever the skip is not negative. -/
theorem rawBuildFilter_exact_match (env : Env) (db : List Record) (q : RawQuery) :
    (∀ v, (rawBuildFilter q).stroke = some v ↔
      rawGetParam q "stroke" = some v ∧ v ≠ QueryValue.str "") ∧
    (∀ v, (rawBuildFilter q).distance = some v ↔
      rawGetParam q "distance" = some v ∧ v ≠ QueryValue.str "") ∧
    (∀ r, rawMatchesFilter (rawBuildFilter q) r = true ↔
      (∀ x, rawGetParam q "stroke" = some (QueryValue.str x) → x ≠ "" → r.stroke = x) ∧
      (∀ y ys, rawGetParam q "stroke" = some (QueryValue.arr y ys) → r.stroke ∈ y :: ys) ∧
      (∀ d, rawGetParam q "distance" = some (QueryValue.str d) → d ≠ "" → r.distance = d) ∧
      (∀ y ys, rawGetParam q "distance" = some (QueryValue.arr y ys) →
        r.distance ∈ y :: ys)) ∧
    (∀ (store : RawStore) body, getRecordsRaw env store q = ListResponse.ok body →
      ∃ totalItems records,
        store.countDocuments (rawBuildFilter q) = Except.ok totalItems ∧
        store.find (rawBuildFilter q) (rawFindWindow q) = Except.ok records ∧
        body.pagination.totalItems = totalItems ∧
        body.items = records.map (toItem env)) ∧
    (∀ x body, rawGetParam q "stroke" = some (QueryValue.str x) → x ≠ "" →
      getRecordsRaw env (rawListStore db) q = ListResponse.ok body →
      ∀ item ∈ body.items, item.stroke = x) ∧
    (rawGetParam q "stroke" = none → rawGetParam q "distance" = none →
      ∀ body, getRecordsRaw env (rawListStore db) q = ListResponse.ok body →
        body.pagination.totalItems = db.length ∧
        (rawFindWindow q = none → body.items = db.map (toItem env)) ∧
        (∀ skip limit, rawFindWindow q = some (skip, limit) → 1 ≤ limit →
          body.items = ((db.drop skip.toNat).take limit.toNat).map (toItem env))) ∧
    ((∀ skip limit, rawFindWindow q = some (skip, limit) → 0 ≤ skip) →
      ∃ body, getRecordsRaw env (rawListStore db) q = ListResponse.ok body) := by
  have hstroke : ∀ v, (rawBuildFilter q).stroke = some v ↔
      rawGetParam q "stroke" = some v ∧ v ≠ QueryValue.str "" :=
    fun v => rawFilterField_eq_some_iff (rawGetParam q "stroke") v
  have hdistance : ∀ v, (rawBuildFilter q).distance = some v ↔
      rawGetParam q "distance" = some v ∧ v ≠ QueryValue.str "" :=
    fun v => rawFilterField_eq_some_iff (rawGetParam q "distance") v
  have hfield : ∀ (raw field : Option QueryValue) (a : String),
      (∀ v, field = some v ↔ raw = some v ∧ v ≠ QueryValue.str "") →
      (valueMatches field a = true ↔
        (∀ x, raw = some (QueryValue.str x) → x ≠ "" → a = x) ∧
        (∀ y ys, raw = some (QueryValue.arr y ys) → a ∈ y :: ys)) := by
    intro raw field a hiff
    cases hf : field with
    | none =>
      simp only [valueMatches, true_iff]
      constructor
      · intro x hx hne
        have := (hiff (QueryValue.str x)).mpr ⟨hx, by simpa using hne⟩
        rw [hf] at this
        cases this
      · intro y ys hy
        have := (hiff (QueryValue.arr y ys)).mpr ⟨hy, by simp⟩
        rw [hf] at this
        cases this
    | some v =>
      obtain ⟨hraw, hv⟩ := (hiff v).mp hf
      cases v with
      | str s =>
        simp only [valueMatches, beq_iff_eq]
        constructor
        · intro h
          refine ⟨?_, ?_⟩
          · intro x hx _
            rw [hraw] at hx
            cases hx
            exact h
          · intro y ys hy
            rw [hraw] at hy
            cases hy
        · intro h
          exact h.1 s hraw (by simpa using hv)
      | arr y ys =>
        simp only [valueMatches, List.contains, List.elem_iff]
        constructor
        · intro h
          refine ⟨?_, ?_⟩
          · intro x hx _
            rw [hraw] at hx
            cases hx
          · intro y' ys' hy
            rw [hraw] at hy
            cases hy
            exact h
        · intro h
          exact h.2 y ys hraw
  have hmatch : ∀ r, rawMatchesFilter (rawBuildFilter q) r = true ↔
      (∀ x, rawGetParam q "stroke" = some (QueryValue.str x) → x ≠ "" → r.stroke = x) ∧
      (∀ y ys, rawGetParam q "stroke" = some (QueryValue.arr y ys) → r.stroke ∈ y :: ys) ∧
      (∀ d, rawGetParam q "distance" = some (QueryValue.str d) → d ≠ "" → r.distance = d) ∧
      (∀ y ys, rawGetParam q "distance" = some (QueryValue.arr y ys) →
        r.distance ∈ y :: ys) := by
    intro r
    unfold rawMatchesFilter
    rw [Bool.and_eq_true, hfield _ _ r.stroke hstroke, hfield _ _ r.distance hdistance,
      and_assoc]
  have hcount : ∀ f, (rawListStore db).countDocuments f =
      Except.ok (db.filter (rawMatchesFilter f)).length := fun _ => rfl
  refine ⟨hstroke, hdistance, hmatch, ?_, ?_, ?_, ?_⟩
  · intro store body hbody
    obtain ⟨t, rs, hc, hf, hb⟩ := getRecordsRaw_ok_inv env store q body hbody
    exact ⟨t, rs, hc, hf, by rw [hb]; rfl, by rw [hb]; rfl⟩
  · intro x body hx hne hbody item hitem
    obtain ⟨t, rs, _, hf, hb⟩ := getRecordsRaw_ok_inv env (rawListStore db) q body hbody
    have hitems : body.items = rs.map (toItem env) := by rw [hb]; rfl
    rw [hitems, List.mem_map] at hitem
    obtain ⟨r, hr, hri⟩ := hitem
    have hmem := (rawListStore_find_sublist db _ _ rs hf).subset hr
    have hm := (List.mem_filter.mp hmem).2
    rw [← hri]
    exact ((hmatch r).mp hm).1 x hx hne
  · intro hs hd body hbody
    obtain ⟨t, rs, hc, hf, hb⟩ := getRecordsRaw_ok_inv env (rawListStore db) q body hbody
    have hall : db.filter (rawMatchesFilter (rawBuildFilter q)) = db := by
      rw [List.filter_eq_self]
      intro r _
      rw [hmatch r]
      refine ⟨?_, ?_, ?_, ?_⟩
      · intro x hx; rw [hs] at hx; cases hx
      · intro y ys hx; rw [hs] at hx; cases hx
      · intro d hx; rw [hd] at hx; cases hx
      · intro y ys hx; rw [hd] at hx; cases hx
    rw [hcount, hall] at hc
    simp only [Except.ok.injEq] at hc
    have hitems : body.items = rs.map (toItem env) := by rw [hb]; rfl
    have htotal : body.pagination.totalItems = t := by rw [hb]; rfl
    refine ⟨by rw [htotal, ← hc], ?_, ?_⟩
    · intro hw
      rw [hw] at hf
      simp only [rawListStore, hall, Except.ok.injEq] at hf
      rw [hitems, ← hf]
    · intro skip limit hw hlim
      rw [hw] at hf
      have hskip : ¬ skip < 0 := by
        intro hneg
        simp [rawListStore, hneg] at hf
      have h2 : limit ≠ 0 := by omega
      have h3 : limit.natAbs = limit.toNat := by omega
      simp only [rawListStore, hskip, h2, h3, if_false, hall, Except.ok.injEq] at hf
      rw [hitems, ← hf]
  · intro hskip
    have hfind : ∃ records, (rawListStore db).find (rawBuildFilter q) (rawFindWindow q) =
        Except.ok records := by
      cases hw : rawFindWindow q with
      | none => exact ⟨_, rfl⟩
      | some w =>
        obtain ⟨skip, limit⟩ := w
        have h1 : ¬ skip < 0 := by
          have := hskip skip limit hw
          omega
        by_cases h2 : limit = 0
        · refine ⟨(db.filter (rawMatchesFilter (rawBuildFilter q))).drop skip.toNat, ?_⟩
          simp only [rawListStore, h1, h2, if_false, if_true]
        · refine ⟨((db.filter (rawMatchesFilter (rawBuildFilter q))).drop skip.toNat).take
            limit.natAbs, ?_⟩
          simp only [rawListStore, h1, h2, if_false]
    obtain ⟨records, hrecords⟩ := hfind
    exact ⟨_, getRecordsRaw_of_ok env (rawListStore db) q _ records (hcount _) hrecords⟩

/-- Witness for C8: the single parameter `stroke=butterfly` over five records
lists two items, both butterfly. -/
theorem rawBuildFilter_exact_match_witness :
    ∃ body, getRecordsRaw sampleEnv (rawListStore (sampleDb 5))
        [("stroke", QueryValue.str "butterfly")] = ListResponse.ok body ∧
      body.items.length = 2 ∧ ∀ item ∈ body.items, item.stroke = "butterfly" :=
  ⟨_, rfl, by decide,
    (rawBuildFilter_exact_match sampleEnv (sampleDb 5)
      [("stroke", QueryValue.str "butterfly")]).2.2.2.2.1
      "butterfly" _ (by decide) (by decide) rfl⟩

/-! ## Pagination links -/

/-- Reading back the key that was just written. -/
theorem getParam_setParam_self (k v : String) (q : Query) :
    getParam (setParam k v q) k = some v := by
  induction q with
  | nil => simp [setParam, getParam, List.lookup]
  | cons kv rest ih =>
    obtain ⟨k', v'⟩ := kv
    unfold setParam
    by_cases h : k' = k
    · simp [h, getParam, List.lookup]
    · have hne : (k == k') = false := by
        simpa using fun h' : k = k' => h h'.symm
      simp only [h, if_false, getParam, List.lookup, hne]
      exact ih

/-- Writing a key leaves every other key as it was. -/
theorem getParam_setParam_other (k k' v : String) (q : Query) (h : k' ≠ k) :
    getParam (setParam k v q) k' = getParam q k' := by
  induction q with
  | nil =>
    have hne : (k' == k) = false := by simpa using h
    simp [setParam, getParam, List.lookup, hne]
  | cons kv rest ih =>
    obtain ⟨k₁, v₁⟩ := kv
    unfold setParam
    by_cases h1 : k₁ = k
    · subst h1
      have hne : (k' == k₁) = false := by simpa using h
      simp [getParam, List.lookup, hne]
    · simp only [h1, if_false, getParam, List.lookup]
      cases hk : k' == k₁ with
      | true => rfl
      | false => exact ih

/-- Writing the value a key already has changes nothing. -/
theorem setParam_of_getParam (k v : String) (q : Query) (h : getParam q k = some v) :
    setParam k v q = q := by
  induction q with
  | nil => simp [getParam, List.lookup] at h
  | cons kv rest ih =>
    obtain ⟨k₁, v₁⟩ := kv
    unfold setParam
    by_cases h1 : k₁ = k
    · subst h1
      simp [getParam, List.lookup] at h
      simp [h]
    · have hne : (k == k₁) = false := by
        simpa using fun h' : k = k₁ => h1 h'.symm
      simp only [getParam, List.lookup, hne] at h
      simp only [h1, if_false]
      rw [ih h]

/-- Writing a key does not touch the entries under other keys, nor their
order. -/
theorem filter_setParam (P : String × String → Bool) (k v : String) (q : Query)
    (hP : ∀ w, P (k, w) = false) : (setParam k v q).filter P = q.filter P := by
  induction q with
  | nil => simp [setParam, hP]
  | cons kv rest ih =>
    obtain ⟨k₁, v₁⟩ := kv
    unfold setParam
    by_cases h1 : k₁ = k
    · subst h1
      simp [List.filter_cons, hP]
    · simp only [h1, if_false, List.filter_cons, ih]

/-- C9, counterexample: with the raw limit `010` the `first` link is
`…/records?limit=10&page=1`: the limit is rewritten to the parsed number, so
the link is not the request's query with only `page` overridden, which would
read `limit=010&page=1`.  And with the limit `0` supplied on page 2, the
`first` link is the self link, which keeps `page=2`. -/
theorem first_href_rewrites_limit :
    (getParam [("limit", "010")] "limit" = some "010" ∧
      ∃ body, getRecords sampleEnv (listStore (sampleDb 25)) [("limit", "010")] =
          ListResponse.ok body ∧
        body.pagination.first.href = "http://localhost:8000/records?limit=10&page=1" ∧
        recordsUrl sampleEnv ++ "?" ++
            stringify (setParam "page" (numStr 1) [("limit", "010")])
          = "http://localhost:8000/records?limit=010&page=1" ∧
        body.pagination.first.href ≠
          recordsUrl sampleEnv ++ "?" ++
            stringify (setParam "page" (numStr 1) [("limit", "010")])) ∧
    (getParam [("limit", "0"), ("page", "2")] "limit" = some "0" ∧
      ∃ body, getRecords sampleEnv (listStore (sampleDb 25)) [("limit", "0"), ("page", "2")] =
          ListResponse.ok body ∧
        body.pagination.first.page = 1 ∧
        body.pagination.first.href = "http://localhost:8000/records?limit=0&page=2") :=
  ⟨⟨by decide, _, rfl, by decide, by decide, by decide⟩,
    ⟨by decide, _, rfl, by decide, by decide⟩⟩

/-- The ceiling of `a / b` is no larger in magnitude than `a`. -/
theorem natAbs_ceilDiv_le (a : Nat) (b : Int) (hb : b ≠ 0) :
    (ceilDiv (a : Int) b).natAbs ≤ a := by
  have hc := ceilDiv_eq_ceil (a : Int) b hb
  simp only [Int.cast_natCast] at hc
  have ha : (0 : ℚ) ≤ (a : ℚ) := Nat.cast_nonneg a
  have hb1 : (1 : ℚ) ≤ |(b : ℚ)| := by
    have : (1 : Int) ≤ |b| := Int.one_le_abs hb
    exact_mod_cast this
  have habs : |(a : ℚ) / (b : ℚ)| ≤ (a : ℚ) := by
    rw [abs_div, abs_of_nonneg ha]
    exact div_le_self ha hb1
  have hup : Int.ceil ((a : ℚ) / (b : ℚ)) ≤ (a : Int) := by
    rw [Int.ceil_le]
    exact_mod_cast (le_abs_self _).trans habs
  have hlow : -(a : Int) ≤ Int.ceil ((a : ℚ) / (b : ℚ)) := by
    have h1 : -(a : ℚ) ≤ (a : ℚ) / (b : ℚ) := by
      have := neg_abs_le ((a : ℚ) / (b : ℚ))
      linarith
    have h2 : ((-(a : Int) : Int) : ℚ) ≤ ((Int.ceil ((a : ℚ) / (b : ℚ)) : Int) : ℚ) := by
      push_cast
      exact h1.trans (Int.le_ceil _)
    exact_mod_cast h2
  rw [hc]
  omega

/-- C9, amended: when the limit is present and parses to a non-zero integer
`l`, with the raw page and limit in the safe range and a safe count, `first`
and `last` carry page 1 and page `totalPages`, and `previous` and `next` (when
present) carry `page - 1` and `page + 1`; the href of each is the records
address, `?`, and the serialization of the request's query parameters with
`page` overridden by the link's page number and `limit` overridden by the
parsed integer `l`, every other parameter being carried forward with its
value and in its place.  The numbers written into the links stay in the range
where they are exact and rendered in decimal form.  When the raw limit is the
decimal form of `l`, the serialized object is the query with only `page`
overridden. -/
theorem listBody_page_links (env : Env) (store : Store) (q : Query) (l : Int)
    (totalItems : Nat) (records : List Record)
    (hlimit : limitOf q = some (JsNum.num l)) (hl : l ≠ 0)
    (hsafeLimit : isSafeInteger l = true)
    (hsafePage : inSafeRange (getParam q "page") = true)
    (hsafeTotal : totalItems < 2 ^ 53)
    (hcount : store.countDocuments (buildFilter q) = Except.ok totalItems)
    (hfind : store.find (buildFilter q) (findWindow q) = Except.ok records) :
    ∃ body, getRecords env store q = ListResponse.ok body ∧
      body.pagination.first =
        { page := 1, href := recordsUrl env ++ "?" ++ stringify (pageParams q 1 l) } ∧
      body.pagination.last =
        { page := body.pagination.totalPages,
          href := recordsUrl env ++ "?" ++
            stringify (pageParams q body.pagination.totalPages l) } ∧
      (∀ link, body.pagination.previous = some link →
        link = { page := body.pagination.currentPage - 1,
                 href := recordsUrl env ++ "?" ++
                   stringify (pageParams q (body.pagination.currentPage - 1) l) }) ∧
      (∀ link, body.pagination.next = some link →
        link = { page := body.pagination.currentPage + 1,
                 href := recordsUrl env ++ "?" ++
                   stringify (pageParams q (body.pagination.currentPage + 1) l) }) ∧
      (l.natAbs < 2 ^ 53 ∧
        body.pagination.totalPages.natAbs < 2 ^ 53 ∧
        (body.pagination.currentPage - 1).natAbs ≤ 2 ^ 53 ∧
        (body.pagination.currentPage + 1).natAbs ≤ 2 ^ 53) ∧
      (∀ p, getParam (pageParams q p l) "page" = some (numStr p) ∧
        getParam (pageParams q p l) "limit" = some (numStr l) ∧
        (∀ k, k ≠ "page" → k ≠ "limit" → getParam (pageParams q p l) k = getParam q k) ∧
        (pageParams q p l).filter (fun kv => kv.1 != "page" && kv.1 != "limit") =
          q.filter (fun kv => kv.1 != "page" && kv.1 != "limit")) ∧
      (getParam q "limit" = some (numStr l) →
        ∀ p, pageParams q p l = setParam "page" (numStr p) q) := by
  have ht := truthyNum_of_limitOf q l hlimit hl
  refine ⟨_, getRecords_of_ok env store q totalItems records hcount hfind, ?_, ?_, ?_, ?_,
    ?_, ?_, ?_⟩
  · simp only [listBody, ht, pageHref, buildPageLink]
  · simp only [listBody, ht, pageHref, buildPageLink]
  · intro link hlink
    simp only [listBody, ht, pageHref, buildPageLink] at hlink ⊢
    split_ifs at hlink with hp
    · simp only [Option.some.injEq] at hlink
      exact hlink.symm
  · intro link hlink
    simp only [listBody, ht, pageHref, buildPageLink] at hlink ⊢
    split_ifs at hlink with hp
    · simp only [Option.some.injEq] at hlink
      exact hlink.symm
  · have hlsafe : l.natAbs < 2 ^ 53 := by simpa [isSafeInteger] using hsafeLimit
    have hpage : (pageOf q).natAbs < 2 ^ 53 := by
      unfold pageOf
      unfold inSafeRange at hsafePage
      cases hp : parseIntArg (getParam q "page") with
      | nan => simp only [orOne]; decide
      | num n =>
        rw [hp] at hsafePage
        have hn : n.natAbs < 2 ^ 53 := by simpa [isSafeInteger] using hsafePage
        simp only [orOne]
        split
        · decide
        · exact hn
    have hceil := natAbs_ceilDiv_le totalItems l hl
    have htotal : (totalPagesOf q totalItems).natAbs < 2 ^ 53 := by
      simp only [totalPagesOf, ht, orOne]
      split
      · decide
      · omega
    refine ⟨hlsafe, htotal, ?_, ?_⟩
    · show (pageOf q - 1).natAbs ≤ 2 ^ 53
      omega
    · show (pageOf q + 1).natAbs ≤ 2 ^ 53
      omega
  · intro p
    have hpl : ("page" : String) ≠ "limit" := by decide
    refine ⟨?_, ?_, ?_, ?_⟩
    · unfold pageParams
      rw [getParam_setParam_other "limit" "page" _ _ hpl, getParam_setParam_self]
    · unfold pageParams
      rw [getParam_setParam_self]
    · intro k hk1 hk2
      unfold pageParams
      rw [getParam_setParam_other "limit" k _ _ hk2, getParam_setParam_other "page" k _ _ hk1]
    · unfold pageParams
      rw [filter_setParam _ "limit" _ _ (by intro w; simp),
        filter_setParam _ "page" _ _ (by intro w; simp)]
  · intro hraw p
    unfold pageParams
    apply setParam_of_getParam
    rw [getParam_setParam_other "page" "limit" _ _ (by decide)]
    exact hraw

/-- Witness for C9: page 2 of 25 records with `limit=10` and a distance
filter that matches them all. -/
theorem listBody_page_links_witness :
    limitOf [("distance", "100m"), ("limit", "10"), ("page", "2")] = some (JsNum.num 10) ∧
    inSafeRange (getParam [("distance", "100m"), ("limit", "10"), ("page", "2")] "page")
      = true ∧
    ∃ body, getRecords sampleEnv (listStore (sampleDb 25))
        [("distance", "100m"), ("limit", "10"), ("page", "2")] = ListResponse.ok body ∧
      body.pagination.first =
        { page := 1
          href := recordsUrl sampleEnv ++ "?" ++
            stringify (pageParams [("distance", "100m"), ("limit", "10"), ("page", "2")] 1 10) } ∧
      body.pagination.last =
        { page := body.pagination.totalPages
          href := recordsUrl sampleEnv ++ "?" ++
            stringify (pageParams [("distance", "100m"), ("limit", "10"), ("page", "2")]
              body.pagination.totalPages 10) } :=
  ⟨by decide, by decide,
    match listBody_page_links sampleEnv (listStore (sampleDb 25))
        [("distance", "100m"), ("limit", "10"), ("page", "2")] 10 25
        (((sampleDb 25).drop 10).take 10) (by decide) (by decide) (by decide) (by decide)
        (by decide) rfl rfl with
    | ⟨body, hbody, hfirst, hlast, _⟩ => ⟨body, hbody, hfirst, hlast⟩⟩

/-- The scenario of the specification: on page 2 of 25 records with
`limit=10`, `previous` points to page 1 and `next` to page 3, the filter and
the limit being carried along. -/
theorem getRecords_links_scenario :
    ∃ body, getRecords sampleEnv (listStore (sampleDb 25))
        [("distance", "100m"), ("limit", "10"), ("page", "2")] = ListResponse.ok body ∧
      body.pagination.first =
        { page := 1, href := "http://localhost:8000/records?distance=100m&limit=10&page=1" } ∧
      body.pagination.last =
        { page := 3, href := "http://localhost:8000/records?distance=100m&limit=10&page=3" } ∧
      body.pagination.previous = some
        { page := 1, href := "http://localhost:8000/records?distance=100m&limit=10&page=1" } ∧
      body.pagination.next = some
        { page := 3, href := "http://localhost:8000/records?distance=100m&limit=10&page=3" } :=
  ⟨_, rfl, by decide, by decide, by decide, by decide⟩

/-! ## Validation of a new record -/

/-- A field passes the test of lines 137-141 exactly when it is present as a
string that is non-empty after trimming. -/
theorem fieldRejected_eq_false_iff (body : Body) (field : String) :
    fieldRejected body field = false ↔
      ∃ s, List.lookup field body = some (JsonValue.str s) ∧ jsTrim s ≠ "" := by
  unfold fieldRejected
  cases h : List.lookup field body with
  | none => simp
  | some v => cases v <;> simp

/-- C10: `POST /records` calls the store's `create` if and only if each of
the seven required fields is present in the body as a string that is non-empty
after trimming; it then calls it once, with the seven values of the body, and
answers with what `create` gives on them: 201 and the created record, or 400
and the message of the error thrown.  Otherwise it answers 400 without calling
`create`, with the message that names the first field, in the order of
`requiredFields`, that fails the test. -/
theorem postRecords_validation (create : CreateArgs → Except String Record) (body : Body) :
    ((postRecords create body).createCalls ≠ [] ↔
      ∀ f ∈ requiredFields,
        ∃ s, List.lookup f body = some (JsonValue.str s) ∧ jsTrim s ≠ "") ∧
    ((∀ f ∈ requiredFields,
        ∃ s, List.lookup f body = some (JsonValue.str s) ∧ jsTrim s ≠ "") →
      (postRecords create body).createCalls = [createArgsOf body] ∧
      (∀ a ∈ [(createArgsOf body).stroke, (createArgsOf body).distance,
          (createArgsOf body).time, (createArgsOf body).name, (createArgsOf body).gender,
          (createArgsOf body).country, (createArgsOf body).imageUrl],
        ∃ s, a = some (JsonValue.str s) ∧ jsTrim s ≠ "") ∧
      (∀ record, create (createArgsOf body) = Except.ok record →
        (postRecords create body).status = 201 ∧
        (postRecords create body).body = PostBody.record record) ∧
      (∀ e, create (createArgsOf body) = Except.error e →
        (postRecords create body).status = 400 ∧
        (postRecords create body).body = PostBody.error e)) ∧
    (¬ (∀ f ∈ requiredFields,
        ∃ s, List.lookup f body = some (JsonValue.str s) ∧ jsTrim s ≠ "") →
      (postRecords create body).status = 400 ∧
      (postRecords create body).createCalls = [] ∧
      ∃ before field after, requiredFields = before ++ field :: after ∧
        (∀ g ∈ before, ∃ s, List.lookup g body = some (JsonValue.str s) ∧ jsTrim s ≠ "") ∧
        (¬ ∃ s, List.lookup field body = some (JsonValue.str s) ∧ jsTrim s ≠ "") ∧
        (postRecords create body).body = PostBody.error (requiredMessage field)) := by
  cases hfind : requiredFields.find? (fieldRejected body) with
  | none =>
    have hall : ∀ f ∈ requiredFields,
        ∃ s, List.lookup f body = some (JsonValue.str s) ∧ jsTrim s ≠ "" := by
      intro f hf
      rw [← fieldRejected_eq_false_iff]
      have := List.find?_eq_none.mp hfind f hf
      simpa using this
    have hcalls : (postRecords create body).createCalls = [createArgsOf body] := by
      simp only [postRecords, hfind]
      split <;> rfl
    have hargs : ∀ a ∈ [(createArgsOf body).stroke, (createArgsOf body).distance,
        (createArgsOf body).time, (createArgsOf body).name, (createArgsOf body).gender,
        (createArgsOf body).country, (createArgsOf body).imageUrl],
        ∃ s, a = some (JsonValue.str s) ∧ jsTrim s ≠ "" := by
      intro a ha
      simp only [List.mem_cons, List.mem_singleton, List.not_mem_nil, or_false] at ha
      rcases ha with h | h | h | h | h | h | h <;> rw [h]
      · exact hall "stroke" (by decide)
      · exact hall "distance" (by decide)
      · exact hall "time" (by decide)
      · exact hall "name" (by decide)
      · exact hall "gender" (by decide)
      · exact hall "country" (by decide)
      · exact hall "imageUrl" (by decide)
    refine ⟨?_, fun _ => ⟨hcalls, hargs, ?_, ?_⟩, fun hnot => absurd hall hnot⟩
    · constructor
      · intro _; exact hall
      · intro _; rw [hcalls]; simp
    · intro record hrec
      simp only [postRecords, hfind, hrec, and_self]
    · intro e he
      simp only [postRecords, hfind, he, and_self]
  | some field =>
    obtain ⟨hrej, before, after, hsplit, hbefore⟩ := List.find?_eq_some.mp hfind
    have hfield : ¬ ∃ s, List.lookup field body = some (JsonValue.str s) ∧ jsTrim s ≠ "" := by
      rw [← fieldRejected_eq_false_iff]
      simp [hrej]
    have hmem : field ∈ requiredFields := by
      rw [hsplit]; simp
    have hnot : ¬ ∀ f ∈ requiredFields,
        ∃ s, List.lookup f body = some (JsonValue.str s) ∧ jsTrim s ≠ "" :=
      fun hall => hfield (hall field hmem)
    have hcalls : (postRecords create body).createCalls = [] := by
      simp only [postRecords, hfind]
    refine ⟨?_, fun hall => absurd hall hnot, fun _ => ⟨?_, hcalls, before, field, after,
      hsplit, ?_, hfield, ?_⟩⟩
    · constructor
      · intro h; exact absurd hcalls h
      · intro hall; exact absurd hall hnot
    · simp only [postRecords, hfind]
    · intro g hg
      rw [← fieldRejected_eq_false_iff]
      simpa using hbefore g hg
    · simp only [postRecords, hfind]

/-- Witness for C10: the complete sample body passes the validation, `create`
is applied to its seven fields, and the record it returns is answered with
201. -/
theorem postRecords_validation_witness :
    (postRecords sampleCreate sampleBody).createCalls = [createArgsOf sampleBody] ∧
    (postRecords sampleCreate sampleBody).status = 201 ∧
    (postRecords sampleCreate sampleBody).body = PostBody.record
      { id := "1", stroke := "freestyle", distance := "100m", time := "00:50.00",
        name := "Swimmer", gender := "f", country := "NL", imageUrl := "http://img",
        favorite := false } :=
  have h := (postRecords_validation sampleCreate sampleBody).2.1
    (fun f hf => (fieldRejected_eq_false_iff sampleBody f).mp
      ((by decide : ∀ g ∈ requiredFields, fieldRejected sampleBody g = false) f hf))
  ⟨h.1, h.2.2.1 _ rfl⟩

/-- A body whose `time` is blank and whose `name` is a number is answered 400
with the message for `time`, the first rejected field, and nothing is
created. -/
theorem postRecords_blank_time :
    postRecords sampleCreate
        [("stroke", JsonValue.str "freestyle"), ("distance", JsonValue.str "100m"),
         ("time", JsonValue.str "  "), ("name", JsonValue.number)] =
      { status := 400
        body := PostBody.error "Field \x27time\x27 is required and must be not empty"
        createCalls := [] } := by
  decide

end SwimRecords
